import Mathlib

/-!
Verification development for the `admet_ai` web application
(`src/admet_ai/web/app/views.py`, `src/admet_ai/web/app/plot.py`).

The pure logic of the route handlers and plotting helpers is embedded
shallowly.  External collaborators (the RDKit parser, the pretrained ADMET
model, matplotlib/seaborn rendering, the DrugBank loader) are abstracted as
parameters; everything written in the repository itself is translated
directly from the source.
-/

namespace AdmetAI

/-! ## `plot.py` — the SVG dimension rewriting (`replace_svg_dimensions`)

`SVG_WIDTH_PATTERN = re.compile(r"width=['\"]\d+(\.\d+)?[a-z]+['\"]")`
`SVG_HEIGHT_PATTERN = re.compile(r"height=['\"]\d+(\.\d+)?[a-z]+['\"]")`

`re.sub` over these patterns is modelled on `List Char`.  `\d` is modelled
as the ASCII digits `0`-`9` (Python's `\d` also accepts non-ASCII decimal
digits; the SVG text produced by matplotlib/RDKit is ASCII) and `[a-z]`
as ASCII lowercase, exactly as in the pattern. -/

/-- The character class `\d` of the patterns (ASCII decimal digit). -/
def isDigitC (c : Char) : Bool := 48 ≤ c.toNat && c.toNat ≤ 57

/-- The character class `[a-z]` of the patterns (ASCII lowercase letter). -/
def isLowC (c : Char) : Bool := 97 ≤ c.toNat && c.toNat ≤ 122

/-- The character class `['\"]` of the patterns (single or double quote). -/
def isQ (c : Char) : Bool := c.toNat = 39 || c.toNat = 34

/-- Double-quote character (used in the replacement texts `width="100%"`,
`height="100%"`). -/
def qD : Char := Char.ofNat 34

/-- Matching a literal: `dropLit lit s` returns the remainder of `s` after
the literal `lit`, or `none` if `lit` is not at the head of `s`. -/
def dropLit : List Char → List Char → Option (List Char)
  | [], s => some s
  | _ :: _, [] => none
  | c :: cs, x :: xs => if x = c then dropLit cs xs else none

/-- The optional group `(\.\d+)?` under greedy matching: consumed when a dot
followed by at least one digit is present, otherwise skipped. -/
def optSkip (r1 : List Char) : List Char :=
  if r1.head? = some '.' then
    if r1.tail.takeWhile isDigitC = [] then r1 else r1.tail.dropWhile isDigitC
  else r1

/-- The part `[a-z]+['\"]` of the patterns: at least one lowercase letter, then
a closing quote; returns the remainder after the quote. -/
def afterUnit (r2 : List Char) : Option (List Char) :=
  if r2.takeWhile isLowC = [] then none
  else
    match (r2.dropWhile isLowC).head? with
    | some q2 => if isQ q2 then some (r2.dropWhile isLowC).tail else none
    | none => none

/-- The part `['\"]\d+(\.\d+)?[a-z]+['\"]` of the patterns (everything after
the `width=`/`height=` literal).  Since the character classes involved are
pairwise disjoint, greedy maximal-munch matching coincides with the regex
engine's backtracking semantics. -/
def tryBody (xs : List Char) : Option (List Char) :=
  match xs with
  | [] => none
  | q1 :: ys =>
      if isQ q1 then
        if ys.takeWhile isDigitC = [] then none
        else afterUnit (optSkip (ys.dropWhile isDigitC))
      else none

/-- The literal `width=` of `SVG_WIDTH_PATTERN`. -/
def wlit : List Char := ['w', 'i', 'd', 't', 'h', '=']

/-- The literal `height=` of `SVG_HEIGHT_PATTERN`. -/
def hlit : List Char := ['h', 'e', 'i', 'g', 'h', 't', '=']

/-- Matching `SVG_WIDTH_PATTERN` at the head of a string, returning the
remainder after the match. -/
def tryMatchW (s : List Char) : Option (List Char) :=
  match dropLit wlit s with
  | some rest => tryBody rest
  | none => none

/-- Matching `SVG_HEIGHT_PATTERN` at the head of a string, returning the
remainder after the match. -/
def tryMatchH (s : List Char) : Option (List Char) :=
  match dropLit hlit s with
  | some rest => tryBody rest
  | none => none

/-- The replacement text `width="100%"`. -/
def replW : List Char := ['w', 'i', 'd', 't', 'h', '=', qD, '1', '0', '0', '%', qD]

/-- The replacement text `height="100%"`. -/
def replH : List Char := ['h', 'e', 'i', 'g', 'h', 't', '=', qD, '1', '0', '0', '%', qD]

/-! Termination of the substitution scan: a successful match consumes at
least one character. -/

theorem dropLit_eq_some {lit s r : List Char} : dropLit lit s = some r ↔ s = lit ++ r := by
  induction lit generalizing s with
  | nil => simp [dropLit]
  | cons c cs ih =>
      cases s with
      | nil => simp [dropLit]
      | cons x xs =>
          by_cases hx : x = c
          · simp [dropLit, hx, ih]
          · simp [dropLit, hx, Ne.symm hx]

/-- The property of the list `opt` consumed by the optional group
`(\.\d+)?`: either nothing, or a dot followed by at least one digit. -/
def OptShape (opt : List Char) : Prop :=
  opt = [] ∨ ∃ ds2, opt = '.' :: ds2 ∧ ds2 ≠ [] ∧ ∀ c ∈ ds2, isDigitC c = true

/-- Exact characterisation of a successful match of the pattern body
`['\"]\d+(\.\d+)?[a-z]+['\"]`. -/
def BodyShape (xs r : List Char) : Prop :=
  ∃ q1 ds opt als q2,
    xs = q1 :: (ds ++ (opt ++ (als ++ q2 :: r))) ∧
    isQ q1 = true ∧ ds ≠ [] ∧ (∀ c ∈ ds, isDigitC c = true) ∧ OptShape opt ∧
    als ≠ [] ∧ (∀ c ∈ als, isLowC c = true) ∧ isQ q2 = true

theorem isLowC_not_digit {c : Char} (h : isLowC c = true) : isDigitC c = false := by
  cases hd : isDigitC c
  · rfl
  · exfalso
    simp only [isLowC, Bool.and_eq_true, decide_eq_true_eq] at h
    simp only [isDigitC, Bool.and_eq_true, decide_eq_true_eq] at hd
    omega

theorem isLowC_not_dot {c : Char} (h : isLowC c = true) : c ≠ '.' := by
  rintro rfl
  exact absurd h (by decide)

theorem isQ_not_digit {c : Char} (h : isQ c = true) : isDigitC c = false := by
  cases hd : isDigitC c
  · rfl
  · exfalso
    simp only [isQ, Bool.or_eq_true, decide_eq_true_eq] at h
    simp only [isDigitC, Bool.and_eq_true, decide_eq_true_eq] at hd
    omega

theorem isQ_not_low {c : Char} (h : isQ c = true) : isLowC c = false := by
  cases hd : isLowC c
  · rfl
  · exfalso
    simp only [isQ, Bool.or_eq_true, decide_eq_true_eq] at h
    simp only [isLowC, Bool.and_eq_true, decide_eq_true_eq] at hd
    omega

theorem isQ_not_dot {c : Char} (h : isQ c = true) : c ≠ '.' := by
  rintro rfl
  exact absurd h (by decide)

theorem afterUnit_eq_some {r2 r : List Char} :
    afterUnit r2 = some r ↔
      ∃ als q2, r2 = als ++ q2 :: r ∧ als ≠ [] ∧ (∀ c ∈ als, isLowC c = true) ∧ isQ q2 = true := by
  constructor
  · intro h
    unfold afterUnit at h
    by_cases hne : r2.takeWhile isLowC = []
    · rw [if_pos hne] at h; cases h
    · rw [if_neg hne] at h
      rcases hd : r2.dropWhile isLowC with _ | ⟨q2, r4⟩
      · simp [hd] at h
      · simp only [hd, List.head?_cons, List.tail_cons] at h
        by_cases hq2 : isQ q2 = true
        · rw [if_pos hq2] at h
          injection h with h
          subst h
          refine ⟨r2.takeWhile isLowC, q2, ?_, hne, fun c hc => List.mem_takeWhile_imp hc, hq2⟩
          have hsplit := List.takeWhile_append_dropWhile isLowC r2
          rw [hd] at hsplit
          exact hsplit.symm
        · rw [if_neg hq2] at h; cases h
  · rintro ⟨als, q2, rfl, hne, hall, hq2⟩
    have ht : (als ++ q2 :: r).takeWhile isLowC = als := by
      rw [List.takeWhile_append_of_pos hall]
      simp [List.takeWhile_cons, isQ_not_low hq2]
    have hdp : (als ++ q2 :: r).dropWhile isLowC = q2 :: r := by
      rw [List.dropWhile_append_of_pos hall]
      simp [List.dropWhile_cons, isQ_not_low hq2]
    unfold afterUnit
    rw [ht, hdp]
    simp [hne, hq2]

theorem optSkip_append {opt r2 : List Char} (hopt : OptShape opt)
    (hr2 : ∃ a r2', r2 = a :: r2' ∧ isLowC a = true) :
    optSkip (opt ++ r2) = r2 := by
  obtain ⟨a, r2', rfl, ha⟩ := hr2
  rcases hopt with rfl | ⟨ds2, rfl, hne, hall⟩
  · have hnd : ¬ ((a :: r2').head? = some '.') := by
      simp [isLowC_not_dot ha]
    simp only [List.nil_append, optSkip, if_neg hnd]
  · have ht : (ds2 ++ a :: r2').takeWhile isDigitC = ds2 := by
      rw [List.takeWhile_append_of_pos hall]
      simp [List.takeWhile_cons, isLowC_not_digit ha]
    have hdp : (ds2 ++ a :: r2').dropWhile isDigitC = a :: r2' := by
      rw [List.dropWhile_append_of_pos hall]
      simp only [List.dropWhile_cons, isLowC_not_digit ha, Bool.false_eq_true, if_false]
    simp only [List.cons_append, optSkip, List.head?_cons, List.tail_cons]
    simp only [if_true, Option.some.injEq, if_pos rfl]
    rw [ht, if_neg hne, hdp]

theorem optSkip_split (r1 : List Char) : ∃ opt, OptShape opt ∧ r1 = opt ++ optSkip r1 := by
  by_cases hdot : r1.head? = some '.'
  · rcases r1 with _ | ⟨c, zs⟩
    · simp at hdot
    · simp only [List.head?_cons, Option.some.injEq] at hdot
      subst hdot
      by_cases hz : zs.takeWhile isDigitC = []
      · refine ⟨[], Or.inl rfl, ?_⟩
        simp [optSkip, hz]
      · refine ⟨'.' :: zs.takeWhile isDigitC,
          Or.inr ⟨zs.takeWhile isDigitC, rfl, hz, fun c hc => List.mem_takeWhile_imp hc⟩, ?_⟩
        simp [optSkip, hz]
  · exact ⟨[], Or.inl rfl, by simp [optSkip, if_neg hdot]⟩

theorem tryBody_eq_some {xs r : List Char} : tryBody xs = some r ↔ BodyShape xs r := by
  constructor
  · intro h
    rcases xs with _ | ⟨q1, ys⟩
    · simp [tryBody] at h
    · simp only [tryBody] at h
      by_cases hq1 : isQ q1 = true
      · rw [if_pos hq1] at h
        by_cases hds : ys.takeWhile isDigitC = []
        · rw [if_pos hds] at h; cases h
        · rw [if_neg hds] at h
          have hsplit := List.takeWhile_append_dropWhile isDigitC ys
          have hdall : ∀ c ∈ ys.takeWhile isDigitC, isDigitC c = true :=
            fun c hc => List.mem_takeWhile_imp hc
          rw [afterUnit_eq_some] at h
          obtain ⟨als, q2, hsk, halsne, halsall, hq2⟩ := h
          obtain ⟨opt, hoptshape, hr1eq⟩ := optSkip_split (ys.dropWhile isDigitC)
          refine ⟨q1, ys.takeWhile isDigitC, opt, als, q2, ?_, hq1, hds, hdall, hoptshape,
            halsne, halsall, hq2⟩
          have hys : ys = ys.takeWhile isDigitC ++ (opt ++ (als ++ q2 :: r)) := by
            conv_lhs => rw [← hsplit]
            rw [hr1eq, hsk]
          exact congrArg (q1 :: ·) hys
      · rw [if_neg hq1] at h; cases h
  · rintro ⟨q1, ds, opt, als, q2, rfl, hq1, hds, hdall, hopt, halsne, halsall, hq2⟩
    rcases als with _ | ⟨a, als'⟩
    · exact absurd rfl halsne
    have ha : isLowC a = true := halsall a (by simp)
    have hheadopt : ∃ b tl, opt ++ ((a :: als') ++ q2 :: r) = b :: tl ∧ isDigitC b = false := by
      rcases hopt with rfl | ⟨ds2, rfl, hne, hall2⟩
      · exact ⟨a, als' ++ q2 :: r, by simp, isLowC_not_digit ha⟩
      · exact ⟨'.', ds2 ++ ((a :: als') ++ q2 :: r), by simp, by decide⟩
    obtain ⟨b, tl, hbtl, hbd⟩ := hheadopt
    have ht : (ds ++ (opt ++ ((a :: als') ++ q2 :: r))).takeWhile isDigitC = ds := by
      rw [List.takeWhile_append_of_pos hdall, hbtl]
      simp [List.takeWhile_cons, hbd]
    have hdp : (ds ++ (opt ++ ((a :: als') ++ q2 :: r))).dropWhile isDigitC =
        opt ++ ((a :: als') ++ q2 :: r) := by
      rw [List.dropWhile_append_of_pos hdall, hbtl]
      simp only [List.dropWhile_cons, hbd, Bool.false_eq_true, if_false]
    simp only [tryBody]
    rw [if_pos hq1, ht, hdp, if_neg hds]
    rw [optSkip_append hopt ⟨a, als' ++ q2 :: r, by simp, ha⟩]
    rw [afterUnit_eq_some]
    exact ⟨a :: als', q2, by simp, by simp, halsall, hq2⟩

/-- Characterisation of a full pattern match: the literal, then the body. -/
def MatchShape (lit xs r : List Char) : Prop :=
  ∃ rest, xs = lit ++ rest ∧ BodyShape rest r

theorem tryMatchW_eq_some {s r : List Char} :
    tryMatchW s = some r ↔ MatchShape wlit s r := by
  unfold tryMatchW MatchShape
  rcases h : dropLit wlit s with _ | rest
  · constructor
    · intro hh; exact absurd hh (by simp)
    · rintro ⟨rest, rfl, _⟩
      rw [dropLit_eq_some.2 rfl] at h
      exact absurd h (by simp)
  · rw [dropLit_eq_some] at h
    subst h
    constructor
    · intro hb
      exact ⟨rest, rfl, tryBody_eq_some.1 hb⟩
    · rintro ⟨rest', heq, hb⟩
      have : rest' = rest := by
        have := List.append_cancel_left heq
        exact this.symm
      subst this
      exact tryBody_eq_some.2 hb

theorem tryMatchH_eq_some {s r : List Char} :
    tryMatchH s = some r ↔ MatchShape hlit s r := by
  unfold tryMatchH MatchShape
  rcases h : dropLit hlit s with _ | rest
  · constructor
    · intro hh; exact absurd hh (by simp)
    · rintro ⟨rest, rfl, _⟩
      rw [dropLit_eq_some.2 rfl] at h
      exact absurd h (by simp)
  · rw [dropLit_eq_some] at h
    subst h
    constructor
    · intro hb
      exact ⟨rest, rfl, tryBody_eq_some.1 hb⟩
    · rintro ⟨rest', heq, hb⟩
      have : rest' = rest := by
        have := List.append_cancel_left heq
        exact this.symm
      subst this
      exact tryBody_eq_some.2 hb

theorem BodyShape.length_lt {xs r : List Char} (h : BodyShape xs r) :
    r.length < xs.length := by
  obtain ⟨q1, ds, opt, als, q2, rfl, _⟩ := h
  simp
  omega

theorem tryMatchW_length {s r : List Char} (h : tryMatchW s = some r) :
    r.length < s.length := by
  obtain ⟨rest, rfl, hb⟩ := tryMatchW_eq_some.1 h
  have := hb.length_lt
  simp [wlit]
  omega

theorem tryMatchH_length {s r : List Char} (h : tryMatchH s = some r) :
    r.length < s.length := by
  obtain ⟨rest, rfl, hb⟩ := tryMatchH_eq_some.1 h
  have := hb.length_lt
  simp [hlit]
  omega

/-- `SVG_WIDTH_PATTERN.sub('width="100%"', ·)`: the left-to-right,
non-overlapping global substitution performed by `re.sub`. -/
def subW (s : List Char) : List Char :=
  match h : tryMatchW s with
  | some r => replW ++ subW r
  | none =>
      match s with
      | [] => []
      | c :: cs => c :: subW cs
termination_by s.length
decreasing_by
  · exact tryMatchW_length h
  · simp

/-- `SVG_HEIGHT_PATTERN.sub('height="100%"', ·)`. -/
def subH (s : List Char) : List Char :=
  match h : tryMatchH s with
  | some r => replH ++ subH r
  | none =>
      match s with
      | [] => []
      | c :: cs => c :: subH cs
termination_by s.length
decreasing_by
  · exact tryMatchH_length h
  · simp

/-- `replace_svg_dimensions` (plot.py lines 20-30): width substitution, then
height substitution. -/
def replaceSvgList (s : List Char) : List Char := subH (subW s)

/-- `replace_svg_dimensions` on `String`. -/
def replace_svg_dimensions (s : String) : String := String.mk (replaceSvgList s.data)

/-- `f` has a match somewhere in `s` (at some position, i.e. on some tail). -/
def hasMatch (f : List Char → Option (List Char)) : List Char → Bool
  | [] => (f []).isSome
  | c :: cs => (f (c :: cs)).isSome || hasMatch f cs

theorem subW_nil : subW [] = [] := by
  rw [subW]
  split
  · rename_i r h
    have hn : tryMatchW ([] : List Char) = none := rfl
    rw [hn] at h
    cases h
  · rfl

theorem subW_some {s r : List Char} (h : tryMatchW s = some r) :
    subW s = replW ++ subW r := by
  rw [subW]
  split
  · rename_i r' h'
    rw [h] at h'
    injection h' with h''
    rw [h'']
  · rename_i h'
    rw [h] at h'
    cases h'

theorem subW_none {c : Char} {cs : List Char} (h : tryMatchW (c :: cs) = none) :
    subW (c :: cs) = c :: subW cs := by
  rw [subW]
  split
  · rename_i r' h'
    rw [h] at h'
    cases h'
  · rfl

theorem subH_nil : subH [] = [] := by
  rw [subH]
  split
  · rename_i r h
    have hn : tryMatchH ([] : List Char) = none := rfl
    rw [hn] at h
    cases h
  · rfl

theorem subH_some {s r : List Char} (h : tryMatchH s = some r) :
    subH s = replH ++ subH r := by
  rw [subH]
  split
  · rename_i r' h'
    rw [h] at h'
    injection h' with h''
    rw [h'']
  · rename_i h'
    rw [h] at h'
    cases h'

theorem subH_none {c : Char} {cs : List Char} (h : tryMatchH (c :: cs) = none) :
    subH (c :: cs) = c :: subH cs := by
  rw [subH]
  split
  · rename_i r' h'
    rw [h] at h'
    cases h'
  · rfl

theorem hasMatch_cons {f : List Char → Option (List Char)} {c : Char} {cs : List Char} :
    hasMatch f (c :: cs) = ((f (c :: cs)).isSome || hasMatch f cs) := rfl

theorem hasMatch_suffix {f : List Char → Option (List Char)} {r s : List Char}
    (hsuf : r <:+ s) (h : hasMatch f s = false) : hasMatch f r = false := by
  induction s with
  | nil =>
      rw [List.suffix_nil] at hsuf
      subst hsuf
      exact h
  | cons c cs ih =>
      rcases List.suffix_cons_iff.1 hsuf with rfl | hsuf'
      · exact h
      · rw [hasMatch_cons, Bool.or_eq_false_iff] at h
        exact ih hsuf' h.2

/-! Helper facts used in the cross-position analysis: no suffix position of a
replacement text (and no overlap with trailing input) can be part of a
pattern match. -/

theorem tryMatchW_cons_ne {c : Char} (hc : c ≠ 'w') (rest : List Char) :
    tryMatchW (c :: rest) = none := by
  unfold tryMatchW
  have hd : dropLit wlit (c :: rest) = none := by
    simp [dropLit, wlit, hc]
  rw [hd]

theorem tryMatchH_cons_ne {c : Char} (hc : c ≠ 'h') (rest : List Char) :
    tryMatchH (c :: rest) = none := by
  unfold tryMatchH
  have hd : dropLit hlit (c :: rest) = none := by
    simp [dropLit, hlit, hc]
  rw [hd]

theorem tryMatchH_cons2_ne {c : Char} (hc : c ≠ 'e') (rest : List Char) :
    tryMatchH ('h' :: c :: rest) = none := by
  unfold tryMatchH
  have hd : dropLit hlit ('h' :: c :: rest) = none := by
    simp [dropLit, hlit, hc]
  rw [hd]

/-- Inside a replacement text, after the digits `100` the `%` sign stops any
pattern body from matching, whatever follows. -/
theorem tryBodyRepl (t : List Char) :
    tryBody (qD :: '1' :: '0' :: '0' :: '%' :: qD :: t) = none := by
  have h1 : (('1' : Char) :: '0' :: '0' :: '%' :: qD :: t).takeWhile isDigitC =
      ['1', '0', '0'] := by
    rw [List.takeWhile_cons_of_pos (by decide), List.takeWhile_cons_of_pos (by decide),
      List.takeWhile_cons_of_pos (by decide), List.takeWhile_cons_of_neg (by decide)]
  have h2 : (('1' : Char) :: '0' :: '0' :: '%' :: qD :: t).dropWhile isDigitC =
      '%' :: qD :: t := by
    rw [List.dropWhile_cons_of_pos (by decide), List.dropWhile_cons_of_pos (by decide),
      List.dropWhile_cons_of_pos (by decide), List.dropWhile_cons_of_neg (by decide)]
  have h3 : optSkip ('%' :: qD :: t) = '%' :: qD :: t := by
    have hh : (('%' : Char) :: qD :: t).head? = some '%' := rfl
    unfold optSkip
    rw [hh, if_neg (by decide)]
  have h4 : afterUnit ('%' :: qD :: t) = none := by
    unfold afterUnit
    rw [List.takeWhile_cons_of_neg (by decide), if_pos rfl]
  simp only [tryBody, h1, h2]
  rw [if_pos (by decide), if_neg (by simp), h3, h4]

/-- No decomposition `lowercase-run ++ quote ++ _` matches `replW ++ X`. -/
theorem noLowQ_replW {als : List Char} {q2 : Char} {r X : List Char}
    (hall : ∀ c ∈ als, isLowC c = true) (hq2 : isQ q2 = true) :
    replW ++ X ≠ als ++ q2 :: r := by
  intro heq
  have e : replW ++ X =
      'w' :: 'i' :: 'd' :: 't' :: 'h' :: '=' :: qD :: '1' :: '0' :: '0' :: '%' :: qD :: X :=
    rfl
  rw [e] at heq
  rcases als with _ | ⟨a1, als⟩
  · injection heq with e1 _
    rw [← e1] at hq2
    exact absurd hq2 (by decide)
  injection heq with e1 heq
  rcases als with _ | ⟨a2, als⟩
  · injection heq with e2 _
    rw [← e2] at hq2
    exact absurd hq2 (by decide)
  injection heq with e2 heq
  rcases als with _ | ⟨a3, als⟩
  · injection heq with e3 _
    rw [← e3] at hq2
    exact absurd hq2 (by decide)
  injection heq with e3 heq
  rcases als with _ | ⟨a4, als⟩
  · injection heq with e4 _
    rw [← e4] at hq2
    exact absurd hq2 (by decide)
  injection heq with e4 heq
  rcases als with _ | ⟨a5, als⟩
  · injection heq with e5 _
    rw [← e5] at hq2
    exact absurd hq2 (by decide)
  injection heq with e5 heq
  rcases als with _ | ⟨a6, als⟩
  · injection heq with e6 _
    rw [← e6] at hq2
    exact absurd hq2 (by decide)
  · injection heq with e6 _
    have h6 : isLowC a6 = true := hall a6 (by simp)
    rw [← e6] at h6
    exact absurd h6 (by decide)

/-- No decomposition `lowercase-run ++ quote ++ _` matches `replH ++ X`. -/
theorem noLowQ_replH {als : List Char} {q2 : Char} {r X : List Char}
    (hall : ∀ c ∈ als, isLowC c = true) (hq2 : isQ q2 = true) :
    replH ++ X ≠ als ++ q2 :: r := by
  intro heq
  have e : replH ++ X =
      'h' :: 'e' :: 'i' :: 'g' :: 'h' :: 't' :: '=' :: qD :: '1' :: '0' :: '0' :: '%' ::
        qD :: X :=
    rfl
  rw [e] at heq
  rcases als with _ | ⟨a1, als⟩
  · injection heq with e1 _
    rw [← e1] at hq2
    exact absurd hq2 (by decide)
  injection heq with e1 heq
  rcases als with _ | ⟨a2, als⟩
  · injection heq with e2 _
    rw [← e2] at hq2
    exact absurd hq2 (by decide)
  injection heq with e2 heq
  rcases als with _ | ⟨a3, als⟩
  · injection heq with e3 _
    rw [← e3] at hq2
    exact absurd hq2 (by decide)
  injection heq with e3 heq
  rcases als with _ | ⟨a4, als⟩
  · injection heq with e4 _
    rw [← e4] at hq2
    exact absurd hq2 (by decide)
  injection heq with e4 heq
  rcases als with _ | ⟨a5, als⟩
  · injection heq with e5 _
    rw [← e5] at hq2
    exact absurd hq2 (by decide)
  injection heq with e5 heq
  rcases als with _ | ⟨a6, als⟩
  · injection heq with e6 _
    rw [← e6] at hq2
    exact absurd hq2 (by decide)
  injection heq with e6 heq
  rcases als with _ | ⟨a7, als⟩
  · injection heq with e7 _
    rw [← e7] at hq2
    exact absurd hq2 (by decide)
  · injection heq with e7 _
    have h7 : isLowC a7 = true := hall a7 (by simp)
    rw [← e7] at h7
    exact absurd h7 (by decide)

/-- No head of `opt ++ (als ++ q2 :: r)` can be a character that is neither a
dot, a digit, nor lowercase. -/
theorem optAls_head {c q2 : Char} {tl opt als r : List Char}
    (hopt : OptShape opt) (halsne : als ≠ []) (halsall : ∀ c ∈ als, isLowC c = true)
    (hc1 : c ≠ '.') (hc2 : isLowC c = false) :
    (c :: tl) ≠ opt ++ (als ++ q2 :: r) := by
  intro heq
  rcases hopt with rfl | ⟨ds2, rfl, hne2, hall2⟩
  · rcases als with _ | ⟨a, als⟩
    · exact halsne rfl
    · rw [List.nil_append] at heq
      injection heq with e _
      have := halsall a (by simp)
      rw [← e] at this
      rw [this] at hc2
      cases hc2
  · rw [List.cons_append] at heq
    injection heq with e _
    exact hc1 e

/-- The tail `100%"` of a replacement text cannot begin a pattern body
remainder `ds ++ opt ++ als ++ q2 :: r`. -/
theorem noBodyTail {q2 : Char} {X ds opt als r : List Char}
    (hds : ds ≠ []) (hdall : ∀ c ∈ ds, isDigitC c = true) (hopt : OptShape opt)
    (halsne : als ≠ []) (halsall : ∀ c ∈ als, isLowC c = true) (hq2 : isQ q2 = true) :
    ('1' :: '0' :: '0' :: '%' :: qD :: X) ≠ ds ++ (opt ++ (als ++ q2 :: r)) := by
  intro heq
  rcases ds with _ | ⟨d1, ds⟩
  · exact hds rfl
  injection heq with e1 heq
  rcases ds with _ | ⟨d2, ds⟩
  · exact optAls_head hopt halsne halsall (by decide) (by decide) heq
  injection heq with e2 heq
  rcases ds with _ | ⟨d3, ds⟩
  · exact optAls_head hopt halsne halsall (by decide) (by decide) heq
  injection heq with e3 heq
  rcases ds with _ | ⟨d4, ds⟩
  · exact optAls_head hopt halsne halsall (by decide) (by decide) heq
  · injection heq with e4 _
    have h4 : isDigitC d4 = true := hdall d4 (by simp)
    rw [← e4] at h4
    exact absurd h4 (by decide)

/-- Three-way append splitting with an explicitly nonempty right overflow. -/
theorem append_split3 {a b c d : List Char} (h : a ++ b = c ++ d) :
    (∃ e, c = a ++ e ∧ b = e ++ d) ∨ (∃ e, e ≠ [] ∧ a = c ++ e ∧ d = e ++ b) := by
  rcases List.append_eq_append_iff.1 h with ⟨e, he1, he2⟩ | ⟨e, he1, he2⟩
  · exact Or.inl ⟨e, he1, he2⟩
  · rcases e with _ | ⟨x, e⟩
    · left
      refine ⟨[], ?_, ?_⟩
      · simpa using he1.symm
      · simpa using he2.symm
    · right
      exact ⟨x :: e, by simp, he1, he2⟩

/-- Core overlap analysis: if the body part of a match overlaps the start of
a replacement text `R`, the match must in fact close before `R` begins. -/
theorem bodySplit {q2 : Char} {R X e ds opt als r : List Char}
    (heq : ds ++ (opt ++ (als ++ q2 :: r)) = e ++ (R ++ X))
    (hdall : ∀ c ∈ ds, isDigitC c = true) (hopt : OptShape opt)
    (halsne : als ≠ []) (halsall : ∀ c ∈ als, isLowC c = true) (hq2 : isQ q2 = true)
    (hRhead : ∃ c R', R = c :: R' ∧ isDigitC c = false ∧ isQ c = false ∧ c ≠ '.')
    (hLQ : ∀ als' q r' X', (∀ c ∈ als', isLowC c = true) → isQ q = true →
      R ++ X' ≠ als' ++ q :: r') :
    ∃ t, e = ds ++ (opt ++ (als ++ q2 :: t)) ∧ r = t ++ (R ++ X) := by
  obtain ⟨c0, R', hR, hRd, hRq, hRdot⟩ := hRhead
  rcases append_split3 heq with ⟨f, hf1, hf2⟩ | ⟨f, hfne, hf1, hf2⟩
  · -- the match body continues past the digit part that fits in `e`
    rcases append_split3 hf2 with ⟨g, hg1, hg2⟩ | ⟨g, hgne, hg1, hg2⟩
    · -- the match body continues past the optional part
      rcases append_split3 hg2 with ⟨h, hh1, hh2⟩ | ⟨h, hhne, hh1, hh2⟩
      · -- the lowercase run fits; the closing quote decides
        rcases h with _ | ⟨y, h⟩
        · exfalso
          rw [List.nil_append, hR, List.cons_append, List.cons.injEq] at hh2
          rw [hh2.1] at hq2
          rw [hq2] at hRq
          cases hRq
        · injection hh2 with ey hr
          refine ⟨h, ?_, ?_⟩
          · rw [hf1, hg1, hh1, ← ey]
          · exact hr
      · -- overflow inside the lowercase run: impossible next to `R`
        exfalso
        refine hLQ h q2 r X (fun c hc => halsall c ?_) hq2 hh2
        rw [hh1]
        simp [hc]
    · -- overflow inside the optional part: 'R' would start with dot or digit
      exfalso
      rcases g with _ | ⟨x, g⟩
      · exact hgne rfl
      rw [hR] at hg2
      injection hg2 with ex _
      have hxopt : x ∈ opt := by
        rw [hg1]
        simp
      rcases hopt with rfl | ⟨ds2, rfl, hne2, hall2⟩
      · cases hxopt
      · rcases List.mem_cons.1 hxopt with rfl | hxds2
        · exact hRdot ex
        · have := hall2 x hxds2
          rw [ex] at hRd
          rw [this] at hRd
          cases hRd
  · -- overflow inside the digit run: 'R' would start with a digit
    exfalso
    rcases f with _ | ⟨x, f⟩
    · exact hfne rfl
    rw [hR] at hf2
    injection hf2 with ex _
    have hxds : x ∈ ds := by
      rw [hf1]
      simp
    have := hdall x hxds
    rw [ex] at hRd
    rw [this] at hRd
    cases hRd

theorem wlit_split {pre f : List Char} (h : wlit = pre ++ f) :
    f = wlit ∨ f = ['i', 'd', 't', 'h', '='] ∨ f = ['d', 't', 'h', '='] ∨
    f = ['t', 'h', '='] ∨ f = ['h', '='] ∨ f = ['='] ∨ f = [] := by
  have h0 : ('w' :: 'i' :: 'd' :: 't' :: 'h' :: '=' :: ([] : List Char)) = pre ++ f := h
  clear h
  rcases pre with _ | ⟨c1, pre⟩
  · left; exact h0.symm
  injection h0 with e1 h0
  rcases pre with _ | ⟨c2, pre⟩
  · right; left; exact h0.symm
  injection h0 with e2 h0
  rcases pre with _ | ⟨c3, pre⟩
  · right; right; left; exact h0.symm
  injection h0 with e3 h0
  rcases pre with _ | ⟨c4, pre⟩
  · right; right; right; left; exact h0.symm
  injection h0 with e4 h0
  rcases pre with _ | ⟨c5, pre⟩
  · right; right; right; right; left; exact h0.symm
  injection h0 with e5 h0
  rcases pre with _ | ⟨c6, pre⟩
  · right; right; right; right; right; left; exact h0.symm
  injection h0 with e6 h0
  right; right; right; right; right; right
  exact (List.append_eq_nil.1 h0.symm).2

theorem hlit_split {pre f : List Char} (h : hlit = pre ++ f) :
    f = hlit ∨ f = ['e', 'i', 'g', 'h', 't', '='] ∨ f = ['i', 'g', 'h', 't', '='] ∨
    f = ['g', 'h', 't', '='] ∨ f = ['h', 't', '='] ∨ f = ['t', '='] ∨ f = ['='] ∨
    f = [] := by
  have h0 : ('h' :: 'e' :: 'i' :: 'g' :: 'h' :: 't' :: '=' :: ([] : List Char)) = pre ++ f := h
  clear h
  rcases pre with _ | ⟨c1, pre⟩
  · left; exact h0.symm
  injection h0 with e1 h0
  rcases pre with _ | ⟨c2, pre⟩
  · right; left; exact h0.symm
  injection h0 with e2 h0
  rcases pre with _ | ⟨c3, pre⟩
  · right; right; left; exact h0.symm
  injection h0 with e3 h0
  rcases pre with _ | ⟨c4, pre⟩
  · right; right; right; left; exact h0.symm
  injection h0 with e4 h0
  rcases pre with _ | ⟨c5, pre⟩
  · right; right; right; right; left; exact h0.symm
  injection h0 with e5 h0
  rcases pre with _ | ⟨c6, pre⟩
  · right; right; right; right; right; left; exact h0.symm
  injection h0 with e6 h0
  rcases pre with _ | ⟨c7, pre⟩
  · right; right; right; right; right; right; left; exact h0.symm
  injection h0 with e7 h0
  right; right; right; right; right; right; right
  exact (List.append_eq_nil.1 h0.symm).2

/-- A width match overlapping an inserted `width="100%"` closes before it. -/
theorem crossWW {pre X r : List Char} (h : tryMatchW (pre ++ (replW ++ X)) = some r) :
    ∃ t, ∀ Z, tryMatchW (pre ++ Z) = some (t ++ Z) := by
  obtain ⟨rest, heq, hb⟩ := tryMatchW_eq_some.1 h
  obtain ⟨q1, ds, opt, als, q2, hrest, hq1, hds, hdall, hopt, halsne, halsall, hq2⟩ := hb
  subst hrest
  rcases append_split3 heq with ⟨f, hf1, hf2⟩ | ⟨f, hfne, hf1, hf2⟩
  · exfalso
    rcases wlit_split hf1 with rfl | rfl | rfl | rfl | rfl | rfl | rfl
    · have e0 : wlit ++ (qD :: '1' :: '0' :: '0' :: '%' :: qD :: X) =
          wlit ++ (q1 :: (ds ++ (opt ++ (als ++ q2 :: r)))) := hf2
      have e1 := List.append_cancel_left e0
      injection e1 with _ e2
      exact noBodyTail hds hdall hopt halsne halsall hq2 e2
    · rw [show replW ++ X =
          'w' :: 'i' :: 'd' :: 't' :: 'h' :: '=' :: qD :: '1' :: '0' :: '0' :: '%' :: qD :: X
          from rfl] at hf2
      injection hf2 with e1 _
      exact absurd e1 (by decide)
    · rw [show replW ++ X =
          'w' :: 'i' :: 'd' :: 't' :: 'h' :: '=' :: qD :: '1' :: '0' :: '0' :: '%' :: qD :: X
          from rfl] at hf2
      injection hf2 with e1 _
      exact absurd e1 (by decide)
    · rw [show replW ++ X =
          'w' :: 'i' :: 'd' :: 't' :: 'h' :: '=' :: qD :: '1' :: '0' :: '0' :: '%' :: qD :: X
          from rfl] at hf2
      injection hf2 with e1 _
      exact absurd e1 (by decide)
    · rw [show replW ++ X =
          'w' :: 'i' :: 'd' :: 't' :: 'h' :: '=' :: qD :: '1' :: '0' :: '0' :: '%' :: qD :: X
          from rfl] at hf2
      injection hf2 with e1 _
      exact absurd e1 (by decide)
    · rw [show replW ++ X =
          'w' :: 'i' :: 'd' :: 't' :: 'h' :: '=' :: qD :: '1' :: '0' :: '0' :: '%' :: qD :: X
          from rfl] at hf2
      injection hf2 with e1 _
      exact absurd e1 (by decide)
    · rw [show replW ++ X =
          'w' :: 'i' :: 'd' :: 't' :: 'h' :: '=' :: qD :: '1' :: '0' :: '0' :: '%' :: qD :: X
          from rfl] at hf2
      injection hf2 with e1 _
      rw [← e1] at hq1
      exact absurd hq1 (by decide)
  · rcases f with _ | ⟨x, f⟩
    · exact absurd rfl hfne
    · injection hf2 with e1 e2
      obtain ⟨t, ht1, ht2⟩ := bodySplit e2 hdall hopt halsne halsall hq2
        ⟨'w', ['i', 'd', 't', 'h', '=', qD, '1', '0', '0', '%', qD], rfl,
          by decide, by decide, by decide⟩
        (fun als' q r' X' h1 h2 => noLowQ_replW h1 h2)
      subst e1
      subst ht1
      subst hf1
      refine ⟨t, fun Z => tryMatchW_eq_some.2
        ⟨q1 :: (ds ++ (opt ++ (als ++ q2 :: (t ++ Z)))), ?_,
          q1, ds, opt, als, q2, rfl, hq1, hds, hdall, hopt, halsne, halsall, hq2⟩⟩
      simp

/-- A height match overlapping an inserted `height="100%"` closes before it. -/
theorem crossHH {pre X r : List Char} (h : tryMatchH (pre ++ (replH ++ X)) = some r) :
    ∃ t, ∀ Z, tryMatchH (pre ++ Z) = some (t ++ Z) := by
  obtain ⟨rest, heq, hb⟩ := tryMatchH_eq_some.1 h
  obtain ⟨q1, ds, opt, als, q2, hrest, hq1, hds, hdall, hopt, halsne, halsall, hq2⟩ := hb
  subst hrest
  rcases append_split3 heq with ⟨f, hf1, hf2⟩ | ⟨f, hfne, hf1, hf2⟩
  · exfalso
    rcases hlit_split hf1 with rfl | rfl | rfl | rfl | rfl | rfl | rfl | rfl
    · have e0 : hlit ++ (qD :: '1' :: '0' :: '0' :: '%' :: qD :: X) =
          hlit ++ (q1 :: (ds ++ (opt ++ (als ++ q2 :: r)))) := hf2
      have e1 := List.append_cancel_left e0
      injection e1 with _ e2
      exact noBodyTail hds hdall hopt halsne halsall hq2 e2
    · rw [show replH ++ X =
          'h' :: 'e' :: 'i' :: 'g' :: 'h' :: 't' :: '=' :: qD :: '1' :: '0' :: '0' :: '%' ::
            qD :: X from rfl] at hf2
      injection hf2 with e1 _
      exact absurd e1 (by decide)
    · rw [show replH ++ X =
          'h' :: 'e' :: 'i' :: 'g' :: 'h' :: 't' :: '=' :: qD :: '1' :: '0' :: '0' :: '%' ::
            qD :: X from rfl] at hf2
      injection hf2 with e1 _
      exact absurd e1 (by decide)
    · rw [show replH ++ X =
          'h' :: 'e' :: 'i' :: 'g' :: 'h' :: 't' :: '=' :: qD :: '1' :: '0' :: '0' :: '%' ::
            qD :: X from rfl] at hf2
      injection hf2 with e1 _
      exact absurd e1 (by decide)
    · rw [show replH ++ X =
          'h' :: 'e' :: 'i' :: 'g' :: 'h' :: 't' :: '=' :: qD :: '1' :: '0' :: '0' :: '%' ::
            qD :: X from rfl] at hf2
      injection hf2 with e1 hf2'
      injection hf2' with e2 _
      exact absurd e2 (by decide)
    · rw [show replH ++ X =
          'h' :: 'e' :: 'i' :: 'g' :: 'h' :: 't' :: '=' :: qD :: '1' :: '0' :: '0' :: '%' ::
            qD :: X from rfl] at hf2
      injection hf2 with e1 _
      exact absurd e1 (by decide)
    · rw [show replH ++ X =
          'h' :: 'e' :: 'i' :: 'g' :: 'h' :: 't' :: '=' :: qD :: '1' :: '0' :: '0' :: '%' ::
            qD :: X from rfl] at hf2
      injection hf2 with e1 _
      exact absurd e1 (by decide)
    · rw [show replH ++ X =
          'h' :: 'e' :: 'i' :: 'g' :: 'h' :: 't' :: '=' :: qD :: '1' :: '0' :: '0' :: '%' ::
            qD :: X from rfl] at hf2
      injection hf2 with e1 _
      rw [← e1] at hq1
      exact absurd hq1 (by decide)
  · rcases f with _ | ⟨x, f⟩
    · exact absurd rfl hfne
    · injection hf2 with e1 e2
      obtain ⟨t, ht1, ht2⟩ := bodySplit e2 hdall hopt halsne halsall hq2
        ⟨'h', ['e', 'i', 'g', 'h', 't', '=', qD, '1', '0', '0', '%', qD], rfl,
          by decide, by decide, by decide⟩
        (fun als' q r' X' h1 h2 => noLowQ_replH h1 h2)
      subst e1
      subst ht1
      subst hf1
      refine ⟨t, fun Z => tryMatchH_eq_some.2
        ⟨q1 :: (ds ++ (opt ++ (als ++ q2 :: (t ++ Z)))), ?_,
          q1, ds, opt, als, q2, rfl, hq1, hds, hdall, hopt, halsne, halsall, hq2⟩⟩
      simp

/-- A width match overlapping an inserted `height="100%"` closes before it. -/
theorem crossWH {pre X r : List Char} (h : tryMatchW (pre ++ (replH ++ X)) = some r) :
    ∃ t, ∀ Z, tryMatchW (pre ++ Z) = some (t ++ Z) := by
  obtain ⟨rest, heq, hb⟩ := tryMatchW_eq_some.1 h
  obtain ⟨q1, ds, opt, als, q2, hrest, hq1, hds, hdall, hopt, halsne, halsall, hq2⟩ := hb
  subst hrest
  rcases append_split3 heq with ⟨f, hf1, hf2⟩ | ⟨f, hfne, hf1, hf2⟩
  · exfalso
    rcases wlit_split hf1 with rfl | rfl | rfl | rfl | rfl | rfl | rfl
    · rw [show replH ++ X =
          'h' :: 'e' :: 'i' :: 'g' :: 'h' :: 't' :: '=' :: qD :: '1' :: '0' :: '0' :: '%' ::
            qD :: X from rfl] at hf2
      have e0 : ('h' : Char) :: 'e' :: 'i' :: 'g' :: 'h' :: 't' :: '=' :: qD :: '1' :: '0' ::
          '0' :: '%' :: qD :: X =
          'w' :: 'i' :: 'd' :: 't' :: 'h' :: '=' :: (q1 :: (ds ++ (opt ++ (als ++ q2 :: r)))) :=
        hf2
      injection e0 with e1 _
      exact absurd e1 (by decide)
    · rw [show replH ++ X =
          'h' :: 'e' :: 'i' :: 'g' :: 'h' :: 't' :: '=' :: qD :: '1' :: '0' :: '0' :: '%' ::
            qD :: X from rfl] at hf2
      injection hf2 with e1 _
      exact absurd e1 (by decide)
    · rw [show replH ++ X =
          'h' :: 'e' :: 'i' :: 'g' :: 'h' :: 't' :: '=' :: qD :: '1' :: '0' :: '0' :: '%' ::
            qD :: X from rfl] at hf2
      injection hf2 with e1 _
      exact absurd e1 (by decide)
    · rw [show replH ++ X =
          'h' :: 'e' :: 'i' :: 'g' :: 'h' :: 't' :: '=' :: qD :: '1' :: '0' :: '0' :: '%' ::
            qD :: X from rfl] at hf2
      injection hf2 with e1 _
      exact absurd e1 (by decide)
    · rw [show replH ++ X =
          'h' :: 'e' :: 'i' :: 'g' :: 'h' :: 't' :: '=' :: qD :: '1' :: '0' :: '0' :: '%' ::
            qD :: X from rfl] at hf2
      injection hf2 with e1 hf2'
      injection hf2' with e2 _
      exact absurd e2 (by decide)
    · rw [show replH ++ X =
          'h' :: 'e' :: 'i' :: 'g' :: 'h' :: 't' :: '=' :: qD :: '1' :: '0' :: '0' :: '%' ::
            qD :: X from rfl] at hf2
      injection hf2 with e1 _
      exact absurd e1 (by decide)
    · rw [show replH ++ X =
          'h' :: 'e' :: 'i' :: 'g' :: 'h' :: 't' :: '=' :: qD :: '1' :: '0' :: '0' :: '%' ::
            qD :: X from rfl] at hf2
      injection hf2 with e1 _
      rw [← e1] at hq1
      exact absurd hq1 (by decide)
  · rcases f with _ | ⟨x, f⟩
    · exact absurd rfl hfne
    · injection hf2 with e1 e2
      obtain ⟨t, ht1, ht2⟩ := bodySplit e2 hdall hopt halsne halsall hq2
        ⟨'h', ['e', 'i', 'g', 'h', 't', '=', qD, '1', '0', '0', '%', qD], rfl,
          by decide, by decide, by decide⟩
        (fun als' q r' X' h1 h2 => noLowQ_replH h1 h2)
      subst e1
      subst ht1
      subst hf1
      refine ⟨t, fun Z => tryMatchW_eq_some.2
        ⟨q1 :: (ds ++ (opt ++ (als ++ q2 :: (t ++ Z)))), ?_,
          q1, ds, opt, als, q2, rfl, hq1, hds, hdall, hopt, halsne, halsall, hq2⟩⟩
      simp

/-! Rewriting the tail of a string cannot create a match at an earlier
position where none existed. -/

theorem headPW_subW : ∀ (n : Nat) (s pre : List Char), s.length ≤ n →
    tryMatchW (pre ++ s) = none → tryMatchW (pre ++ subW s) = none := by
  intro n
  induction n with
  | zero =>
      intro s pre hlen h
      have hs : s = [] := List.length_eq_zero.1 (Nat.le_zero.1 hlen)
      subst hs
      rwa [subW_nil]
  | succ n ih =>
      intro s pre hlen h
      rcases hm : tryMatchW s with _ | r
      · rcases s with _ | ⟨c, cs⟩
        · rwa [subW_nil]
        · rw [subW_none hm]
          have h2 : tryMatchW ((pre ++ [c]) ++ cs) = none := by
            simpa using h
          have h3 := ih cs (pre ++ [c]) (by simp at hlen ⊢; omega) h2
          simpa using h3
      · rw [subW_some hm]
        rcases hx : tryMatchW (pre ++ (replW ++ subW r)) with _ | rr
        · rfl
        · exfalso
          obtain ⟨t, ht⟩ := crossWW hx
          have := ht s
          rw [h] at this
          cases this

theorem headPH_subH : ∀ (n : Nat) (s pre : List Char), s.length ≤ n →
    tryMatchH (pre ++ s) = none → tryMatchH (pre ++ subH s) = none := by
  intro n
  induction n with
  | zero =>
      intro s pre hlen h
      have hs : s = [] := List.length_eq_zero.1 (Nat.le_zero.1 hlen)
      subst hs
      rwa [subH_nil]
  | succ n ih =>
      intro s pre hlen h
      rcases hm : tryMatchH s with _ | r
      · rcases s with _ | ⟨c, cs⟩
        · rwa [subH_nil]
        · rw [subH_none hm]
          have h2 : tryMatchH ((pre ++ [c]) ++ cs) = none := by
            simpa using h
          have h3 := ih cs (pre ++ [c]) (by simp at hlen ⊢; omega) h2
          simpa using h3
      · rw [subH_some hm]
        rcases hx : tryMatchH (pre ++ (replH ++ subH r)) with _ | rr
        · rfl
        · exfalso
          obtain ⟨t, ht⟩ := crossHH hx
          have := ht s
          rw [h] at this
          cases this

theorem headPW_subH : ∀ (n : Nat) (s pre : List Char), s.length ≤ n →
    tryMatchW (pre ++ s) = none → tryMatchW (pre ++ subH s) = none := by
  intro n
  induction n with
  | zero =>
      intro s pre hlen h
      have hs : s = [] := List.length_eq_zero.1 (Nat.le_zero.1 hlen)
      subst hs
      rwa [subH_nil]
  | succ n ih =>
      intro s pre hlen h
      rcases hm : tryMatchH s with _ | r
      · rcases s with _ | ⟨c, cs⟩
        · rwa [subH_nil]
        · rw [subH_none hm]
          have h2 : tryMatchW ((pre ++ [c]) ++ cs) = none := by
            simpa using h
          have h3 := ih cs (pre ++ [c]) (by simp at hlen ⊢; omega) h2
          simpa using h3
      · -- a height match was replaced; the width pattern must have closed in `pre`
        rw [subH_some hm]
        rcases hx : tryMatchW (pre ++ (replH ++ subH r)) with _ | rr
        · rfl
        · exfalso
          obtain ⟨t, ht⟩ := crossWH hx
          -- the match inside `pre` is also present with the original tail
          obtain ⟨rest, heq, hb⟩ := tryMatchH_eq_some.1 hm
          obtain ⟨q1, ds, opt, als, q2, hrest, _⟩ := hb
          have := ht s
          rw [h] at this
          cases this

/-! Prepending a replacement text creates no matches inside it. -/

theorem hasMatch_W_replW (t : List Char) :
    hasMatch tryMatchW (replW ++ t) = hasMatch tryMatchW t := by
  have h0 : tryMatchW ('w' :: 'i' :: 'd' :: 't' :: 'h' :: '=' :: qD :: '1' :: '0' :: '0' ::
      '%' :: qD :: t) = none := by
    have e : tryMatchW ('w' :: 'i' :: 'd' :: 't' :: 'h' :: '=' :: qD :: '1' :: '0' :: '0' ::
        '%' :: qD :: t) = tryBody (qD :: '1' :: '0' :: '0' :: '%' :: qD :: t) := rfl
    rw [e, tryBodyRepl]
  show hasMatch tryMatchW ('w' :: 'i' :: 'd' :: 't' :: 'h' :: '=' :: qD :: '1' :: '0' :: '0' ::
      '%' :: qD :: t) = hasMatch tryMatchW t
  simp only [hasMatch_cons, h0,
    tryMatchW_cons_ne (c := 'i') (by decide), tryMatchW_cons_ne (c := 'd') (by decide),
    tryMatchW_cons_ne (c := 't') (by decide), tryMatchW_cons_ne (c := 'h') (by decide),
    tryMatchW_cons_ne (c := '=') (by decide), tryMatchW_cons_ne (c := qD) (by decide),
    tryMatchW_cons_ne (c := '1') (by decide), tryMatchW_cons_ne (c := '0') (by decide),
    tryMatchW_cons_ne (c := '%') (by decide)]
  simp

theorem hasMatch_H_replH (t : List Char) :
    hasMatch tryMatchH (replH ++ t) = hasMatch tryMatchH t := by
  have h0 : tryMatchH ('h' :: 'e' :: 'i' :: 'g' :: 'h' :: 't' :: '=' :: qD :: '1' :: '0' ::
      '0' :: '%' :: qD :: t) = none := by
    have e : tryMatchH ('h' :: 'e' :: 'i' :: 'g' :: 'h' :: 't' :: '=' :: qD :: '1' :: '0' ::
        '0' :: '%' :: qD :: t) = tryBody (qD :: '1' :: '0' :: '0' :: '%' :: qD :: t) := rfl
    rw [e, tryBodyRepl]
  have h4 : tryMatchH ('h' :: 't' :: '=' :: qD :: '1' :: '0' :: '0' :: '%' :: qD :: t) =
      none := tryMatchH_cons2_ne (by decide) _
  show hasMatch tryMatchH ('h' :: 'e' :: 'i' :: 'g' :: 'h' :: 't' :: '=' :: qD :: '1' :: '0' ::
      '0' :: '%' :: qD :: t) = hasMatch tryMatchH t
  simp only [hasMatch_cons, h0, h4,
    tryMatchH_cons_ne (c := 'e') (by decide), tryMatchH_cons_ne (c := 'i') (by decide),
    tryMatchH_cons_ne (c := 'g') (by decide), tryMatchH_cons_ne (c := 't') (by decide),
    tryMatchH_cons_ne (c := '=') (by decide), tryMatchH_cons_ne (c := qD) (by decide),
    tryMatchH_cons_ne (c := '1') (by decide), tryMatchH_cons_ne (c := '0') (by decide),
    tryMatchH_cons_ne (c := '%') (by decide)]
  simp

theorem hasMatch_W_replH (t : List Char) :
    hasMatch tryMatchW (replH ++ t) = hasMatch tryMatchW t := by
  show hasMatch tryMatchW ('h' :: 'e' :: 'i' :: 'g' :: 'h' :: 't' :: '=' :: qD :: '1' :: '0' ::
      '0' :: '%' :: qD :: t) = hasMatch tryMatchW t
  simp only [hasMatch_cons,
    tryMatchW_cons_ne (c := 'h') (by decide), tryMatchW_cons_ne (c := 'e') (by decide),
    tryMatchW_cons_ne (c := 'i') (by decide), tryMatchW_cons_ne (c := 'g') (by decide),
    tryMatchW_cons_ne (c := 't') (by decide), tryMatchW_cons_ne (c := '=') (by decide),
    tryMatchW_cons_ne (c := qD) (by decide), tryMatchW_cons_ne (c := '1') (by decide),
    tryMatchW_cons_ne (c := '0') (by decide), tryMatchW_cons_ne (c := '%') (by decide)]
  simp

/-! A string without matches is left unchanged by the substitution; the output
of a substitution contains no matches of its own pattern; and the height
substitution cannot create width matches. -/

theorem subW_of_noMatch {s : List Char} (h : hasMatch tryMatchW s = false) : subW s = s := by
  induction s with
  | nil => exact subW_nil
  | cons c cs ih =>
      rw [hasMatch_cons, Bool.or_eq_false_iff] at h
      have hm : tryMatchW (c :: cs) = none := by
        cases hx : tryMatchW (c :: cs) with
        | none => rfl
        | some r =>
            rw [hx] at h
            simp at h
      rw [subW_none hm, ih h.2]

theorem subH_of_noMatch {s : List Char} (h : hasMatch tryMatchH s = false) : subH s = s := by
  induction s with
  | nil => exact subH_nil
  | cons c cs ih =>
      rw [hasMatch_cons, Bool.or_eq_false_iff] at h
      have hm : tryMatchH (c :: cs) = none := by
        cases hx : tryMatchH (c :: cs) with
        | none => rfl
        | some r =>
            rw [hx] at h
            simp at h
      rw [subH_none hm, ih h.2]

theorem noMatch_subW : ∀ (n : Nat) (s : List Char), s.length ≤ n →
    hasMatch tryMatchW (subW s) = false := by
  intro n
  induction n with
  | zero =>
      intro s hlen
      have hs : s = [] := List.length_eq_zero.1 (Nat.le_zero.1 hlen)
      subst hs
      rw [subW_nil]
      rfl
  | succ n ih =>
      intro s hlen
      rcases hm : tryMatchW s with _ | r
      · rcases s with _ | ⟨c, cs⟩
        · rw [subW_nil]; rfl
        · rw [subW_none hm, hasMatch_cons]
          have h1 : hasMatch tryMatchW (subW cs) = false := ih cs (by simp at hlen; omega)
          have h2 : tryMatchW (c :: subW cs) = none := by
            have h3 := headPW_subW cs.length cs [c] le_rfl (by simpa using hm)
            simpa using h3
          rw [h2, h1]
          rfl
      · rw [subW_some hm, hasMatch_W_replW]
        exact ih r (by have := tryMatchW_length hm; omega)

theorem noMatch_subH : ∀ (n : Nat) (s : List Char), s.length ≤ n →
    hasMatch tryMatchH (subH s) = false := by
  intro n
  induction n with
  | zero =>
      intro s hlen
      have hs : s = [] := List.length_eq_zero.1 (Nat.le_zero.1 hlen)
      subst hs
      rw [subH_nil]
      rfl
  | succ n ih =>
      intro s hlen
      rcases hm : tryMatchH s with _ | r
      · rcases s with _ | ⟨c, cs⟩
        · rw [subH_nil]; rfl
        · rw [subH_none hm, hasMatch_cons]
          have h1 : hasMatch tryMatchH (subH cs) = false := ih cs (by simp at hlen; omega)
          have h2 : tryMatchH (c :: subH cs) = none := by
            have h3 := headPH_subH cs.length cs [c] le_rfl (by simpa using hm)
            simpa using h3
          rw [h2, h1]
          rfl
      · rw [subH_some hm, hasMatch_H_replH]
        exact ih r (by have := tryMatchH_length hm; omega)

theorem noMatchW_subH : ∀ (n : Nat) (s : List Char), s.length ≤ n →
    hasMatch tryMatchW s = false → hasMatch tryMatchW (subH s) = false := by
  intro n
  induction n with
  | zero =>
      intro s hlen h
      have hs : s = [] := List.length_eq_zero.1 (Nat.le_zero.1 hlen)
      subst hs
      rwa [subH_nil]
  | succ n ih =>
      intro s hlen h
      rcases hm : tryMatchH s with _ | r
      · rcases s with _ | ⟨c, cs⟩
        · rwa [subH_nil]
        · rw [subH_none hm, hasMatch_cons]
          rw [hasMatch_cons, Bool.or_eq_false_iff] at h
          have h1 : hasMatch tryMatchW (subH cs) = false :=
            ih cs (by simp at hlen; omega) h.2
          have hcc : tryMatchW ([c] ++ cs) = none := by
            cases hx : tryMatchW (c :: cs) with
            | none => exact hx
            | some r =>
                rw [hx] at h
                simp at h
          have h2 : tryMatchW (c :: subH cs) = none := by
            have h3 := headPW_subH cs.length cs [c] le_rfl hcc
            simpa using h3
          rw [h2, h1]
          rfl
      · rw [subH_some hm, hasMatch_W_replH]
        have hr : hasMatch tryMatchW r = false := by
          obtain ⟨rest, heq, hb⟩ := tryMatchH_eq_some.1 hm
          obtain ⟨q1, ds, opt, als, q2, hrest, _⟩ := hb
          subst hrest
          subst heq
          refine hasMatch_suffix ⟨hlit ++ (q1 :: (ds ++ (opt ++ (als ++ [q2])))), ?_⟩ h
          simp
        exact ih r (by have := tryMatchH_length hm; omega) hr

/-! The substitution output is in normal form for both patterns. -/

theorem replaceSvgList_noW (s : List Char) :
    hasMatch tryMatchW (replaceSvgList s) = false :=
  noMatchW_subH (subW s).length (subW s) le_rfl (noMatch_subW s.length s le_rfl)

theorem replaceSvgList_noH (s : List Char) :
    hasMatch tryMatchH (replaceSvgList s) = false :=
  noMatch_subH (subW s).length (subW s) le_rfl

theorem replaceSvgList_idem (s : List Char) :
    replaceSvgList (replaceSvgList s) = replaceSvgList s := by
  have h1 : subW (replaceSvgList s) = replaceSvgList s :=
    subW_of_noMatch (replaceSvgList_noW s)
  have h2 : subH (replaceSvgList s) = replaceSvgList s :=
    subH_of_noMatch (replaceSvgList_noH s)
  show subH (subW (replaceSvgList s)) = replaceSvgList s
  rw [h1, h2]

/-! ## Data model: pandas DataFrames and external collaborators -/

/-- A pandas `DataFrame` as used by the handlers: rows keyed by an index of
SMILES strings, named columns of numeric values, stored column-major.
Numeric cells are modelled as rationals. -/
structure DataFrame where
  index : List String
  colNames : List String
  colData : List (List Rat)
deriving DecidableEq

/-- Column extraction `df[name].values`.  All uses in the handlers access
columns that are present. -/
def getCol (df : DataFrame) (c : String) : List Rat :=
  match df.colNames.findIdx? (fun n => n = c) with
  | some j => df.colData.getD j []
  | none => []

/-- `pd.concat((a, b), axis=1)` for frames sharing the same index, as at both
call sites in `index` (views.py lines 118 and 134). -/
def concatCols (a b : DataFrame) : DataFrame :=
  { index := a.index, colNames := a.colNames ++ b.colNames, colData := a.colData ++ b.colData }

/-- `len(df)`: the number of rows. -/
def DataFrame.nrows (df : DataFrame) : Nat := df.index.length

/-- Modelled from the spec: §4.1/§8 — the percentile rank of a value within
a reference population, as a number in 0-100; the mean-rank convention
(average of the strict and the weak rank) is used.
(`admet_ai.web.app.drugbank` is not among the provided sources.) -/
def percentileOfScore (ref : List Rat) (v : Rat) : Rat :=
  100 * (((ref.countP (fun x => x < v) : Nat) : Rat) +
    ((ref.countP (fun x => x ≤ v) : Nat) : Rat)) / (2 * (ref.length : Rat))

/-- Modelled from the spec: §4.1/§3 — `compute_drugbank_percentile`
(`admet_ai.web.app.drugbank`, not among the provided sources): the reference
population is a static table of rows carrying categorical (ATC) codes and
per-property values; an ATC filter of `none` or `"all"` keeps the whole
population, any other code keeps the rows carrying it; each prediction is
ranked within the filtered population. -/
def compute_drugbank_percentile (drugbank : List (List String × (String → Rat)))
    (propertyName : String) (predictions : List Rat) (atcCode : Option String) : List Rat :=
  let rows := match atcCode with
    | none => drugbank
    | some code =>
        if code = "all" then drugbank else drugbank.filter (fun row => row.1.contains code)
  let refVals := rows.map (fun row => row.2 propertyName)
  predictions.map (fun v => percentileOfScore refVals v)

/-- One `sns.scatterplot` layer with the arguments passed in `plot.py`. -/
structure ScatterLayer where
  xs : List Rat
  ys : List Rat
  label : String
  color : Option String
  marker : Option String
  s : Option Nat
deriving DecidableEq

/-- The matplotlib figure state built by `plot_drugbank_reference`. -/
structure Figure where
  layers : List ScatterLayer
  title : String
  xlabel : String
  ylabel : String
deriving DecidableEq

/-- The polar figure built by `plot_radial_summary`: the closed percentile
loop and the axis labels. -/
structure RadialFigure where
  percentiles : List Rat
  labels : List String
deriving DecidableEq

/-- External collaborators of the route handlers (spec §6): the RDKit
parser, the physicochemical property calculator, the pretrained ADMET model
(both produce tables keyed by the submitted SMILES), the DrugBank reference
loaders, the ADMET name table, and the matplotlib/RDKit renderers.  `Mol` is
the opaque RDKit molecule type. -/
structure Env (Mol : Type) where
  parse : String → Option Mol
  physchemCols : List String
  physchemVal : String → String → Rat
  admetCols : List String
  admetVal : String → String → Rat
  drugbank : List (List String × (String → Rat))
  getDrugbank : String → DataFrame
  admetNameToId : String → String
  renderFig : Figure → String
  renderRadial : RadialFigure → String
  drawMol : Mol → String

/-! ## `plot.py` — the plotting functions -/

/-- The DrugBank reference scatter layer (plot.py lines 66-71). -/
def drugbankLayer {Mol : Type} (env : Env Mol) (xId yId atcCode : String) : ScatterLayer :=
  { xs := getCol (env.getDrugbank atcCode) xId
    ys := getCol (env.getDrugbank atcCode) yId
    label := "DrugBank Approved" ++ (if atcCode ≠ "all" then " (ATC filter)" else "")
    color := none
    marker := none
    s := none }

/-- The submitted-molecule scatter layer (plot.py lines 78-85). -/
def inputLayer (preds_df : DataFrame) (xId yId label : String) : ScatterLayer :=
  { xs := getCol preds_df xId
    ys := getCol preds_df yId
    label := label
    color := some "red"
    marker := some "*"
    s := some 200 }

/-- The figure built by `plot_drugbank_reference` (plot.py lines 47-95):
defaulted property names and ATC code, the reference layer, the
submitted-molecule layer only when the prediction table is nonempty, and the
title and axis labels. -/
def drugbankFigure {Mol : Type} (env : Env Mol) (preds_df : DataFrame)
    (x_property_name y_property_name atc_code : Option String) : Figure :=
  let xname := x_property_name.getD "Human Intestinal Absorption"
  let yname := y_property_name.getD "Clinical Toxicity"
  let atc := atc_code.getD "all"
  let xId := env.admetNameToId xname
  let yId := env.admetNameToId yname
  let input_label := "Input Molecule" ++ (if preds_df.nrows > 1 then "s" else "")
  { layers := [drugbankLayer env xId yId atc] ++
      (if preds_df.nrows > 0 then [inputLayer preds_df xId yId input_label] else [])
    title := input_label ++ " vs DrugBank Approved" ++
      (if atc ≠ "all" then "\nATC = " ++ atc else "")
    xlabel := xname
    ylabel := yname }

/-- `plot_drugbank_reference` (plot.py lines 33-107): build the figure,
render it, and rewrite the SVG dimensions before returning. -/
def plot_drugbank_reference {Mol : Type} (env : Env Mol) (preds_df : DataFrame)
    (x_property_name y_property_name atc_code : Option String) : String :=
  replace_svg_dimensions
    (env.renderFig (drugbankFigure env preds_df x_property_name y_property_name atc_code))

/-- `plot_radial_summary` (plot.py lines 110-173; the Python default of
`percentile_suffix` is the empty string).  The percentile lookups and the
closed loop from the source are explicit; the matplotlib polar drawing is
the abstract renderer. -/
def plot_radial_summary {Mol : Type} (env : Env Mol)
    (property_name_to_percentile : String → Rat) (property_names : List String)
    (percentile_suffix : String) : String :=
  let percentiles := property_names.map
    (fun n => property_name_to_percentile (env.admetNameToId n ++ "_" ++ percentile_suffix))
  replace_svg_dimensions
    (env.renderRadial
      { percentiles := percentiles ++ percentiles.take 1
        labels := property_names })

/-- `plot_molecule_svg` (plot.py lines 176-195) for an already-parsed
molecule (the handler always passes RDKit molecules; a SMILES argument would
first go through the external parser). -/
def plot_molecule_svg {Mol : Type} (env : Env Mol) (mol : Mol) : String :=
  replace_svg_dimensions (env.drawMol mol)

/-! ## Storage (`admet_ai.web.app.storage`, spec-modelled) -/

/-- Modelled from the spec: §3/§4.2 — a per-user store entry: the latest
prediction table and a last-activity timestamp
(`admet_ai.web.app.storage` is not among the provided sources). -/
structure UserData where
  preds : DataFrame
  lastActivity : Nat
deriving DecidableEq

/-- Modelled from the spec: the in-memory per-user store, at most one entry
per user identifier. -/
abbrev Store := List (String × UserData)

/-- Modelled from the spec: `get(user_id)` returns the stored table or a
not-found condition. -/
def get_user_preds (store : Store) (uid : String) : Option DataFrame :=
  (store.find? (fun e => e.1 = uid)).map (fun e => e.2.preds)

/-- Modelled from the spec: `touch(user_id)` updates the last-activity
timestamp only; a no-op for unknown users (it must not create an entry). -/
def update_user_activity (store : Store) (uid : String) (now : Nat) : Store :=
  store.map (fun e => if e.1 = uid then (e.1, { e.2 with lastActivity := now }) else e)

/-! ## `views.py` — the route handlers -/

/-- The Flask session values read by the handlers. -/
structure Session where
  userId : Option String
  atcCode : Option String
  xTaskName : Option String
  yTaskName : Option String

/-- The Flask app configuration values read by `index`. -/
structure Config where
  maxMolecules : Option Nat
  maxVisibleMolecules : Nat

/-- Digit grouping of Python's format specifier `,`: walking the reversed
digit string, a separator is inserted after every completed group of three
digits that is followed by more digits. -/
def group3 : List Char → Nat → List Char
  | [], _ => []
  | c :: cs, 0 => ',' :: c :: group3 cs 2
  | c :: cs, Nat.succ k => c :: group3 cs k

/-- Python's `f"{n:,}"` for a natural number. -/
def commaFmt (n : Nat) : String :=
  String.mk (group3 (toString n).data.reverse 3).reverse

/-- The too-many-molecules error text (views.py line 85). -/
def tooManyMsg (m : Nat) : String :=
  "Received too many molecules. Maximum number of molecules is " ++ commaFmt m ++ "."

/-- The invalid-SMILES warning text (views.py lines 95-98). -/
def invalidMsg (n : Nat) : String :=
  "Input contains " ++ commaFmt n ++ " invalid SMILES string" ++
    (if n > 1 then "s" else "") ++ "."

/-- Python keyword-argument binding at a call site: an unexpected keyword,
or a missing required argument, raises `TypeError`. -/
def callCheck (fname : String) (params required given : List String) : Option String :=
  match given.find? (fun k => !(params.contains k)) with
  | some k => some (fname ++ "() got an unexpected keyword argument \x27" ++ k ++ "\x27")
  | none =>
      match required.find? (fun k => !(given.contains k)) with
      | some k => some (fname ++ "() missing a required argument: \x27" ++ k ++ "\x27")
      | none => none

/-- The parameters of `plot_drugbank_reference` as defined in plot.py lines
33-38. -/
def plotDrugbankReferenceParams : List String :=
  ["preds_df", "x_property_name", "y_property_name", "atc_code"]

/-- The parameters of `plot_drugbank_reference` without a default value. -/
def plotDrugbankReferenceRequired : List String := ["preds_df"]

/-- The parameters of `plot_radial_summary` as defined in plot.py lines
110-111. -/
def plotRadialSummaryParams : List String :=
  ["property_name_to_percentile", "property_names", "percentile_suffix"]

/-- The parameters of `plot_radial_summary` without a default value. -/
def plotRadialSummaryRequired : List String :=
  ["property_name_to_percentile", "property_names"]

/-- The keywords passed by `index` to `plot_drugbank_reference` (views.py
lines 145-151). -/
def indexDrugbankCallKwargs : List String :=
  ["preds_df", "x_property_name", "y_property_name", "atc_code", "max_molecule_num"]

/-- The keywords passed by `index` to `plot_radial_summary` (views.py lines
160-166). -/
def indexRadialCallKwargs : List String :=
  ["property_id_to_percentile", "percentile_suffix"]

/-- The rendered-page data passed to `render` on the success path (views.py
lines 168-178). -/
structure Page where
  all_smiles : List String
  mol_svgs : List String
  radial_svgs : List String
  drugbank_plot : String
  num_molecules : Nat
  num_display_molecules : Nat
  warnings : List String
deriving DecidableEq

/-- The observable result of a POST to `/`: a rendered error page, a
rendered prediction page, or an uncaught Python exception (a 500 response). -/
inductive IndexResult where
  | errorPage (errors : List String)
  | success (page : Page)
  | pyError (msg : String)
deriving DecidableEq

/-- The outcome of the `index` handler together with its side effects: the
`warnings` local at the moment control leaves the handler, the combined
prediction table when built (views.py line 134), the argument of
`set_user_preds` when called (line 142), and whether `admet_model.predict`
ran (line 115). -/
structure IndexOutcome where
  result : IndexResult
  warnings : List String
  built : Option DataFrame
  stored : Option DataFrame
  modelCalled : Bool
deriving DecidableEq

/-- `DRUGBANK_APPROVED_PERCENTILE_SUFFIX` (views.py line 42). -/
def DRUGBANK_APPROVED_PERCENTILE_SUFFIX : String := "drugbank_approved_percentile"

/-- The valid SMILES kept by `index` (views.py line 101): the submitted
strings whose external parse succeeds, in input order. -/
def validSmiles {Mol : Type} (env : Env Mol) (all_smiles : List String) : List String :=
  (all_smiles.zip (all_smiles.map env.parse)).filterMap
    (fun p => if p.2.isSome then some p.1 else none)

/-- `num_invalid_mols` (views.py line 93). -/
def numInvalid {Mol : Type} (env : Env Mol) (all_smiles : List String) : Nat :=
  ((all_smiles.map env.parse).filter (fun m => m.isNone)).length

/-- The combined prediction/percentile table of `index` (views.py lines
108-134): physicochemical and ADMET predictions concatenated, then the
DrugBank percentile columns, all indexed by the valid SMILES. -/
def predsTable {Mol : Type} (env : Env Mol) (atcCode : Option String)
    (valid_smiles : List String) : DataFrame :=
  let physchem_preds : DataFrame :=
    { index := valid_smiles, colNames := env.physchemCols,
      colData := env.physchemCols.map (fun c => valid_smiles.map (env.physchemVal c)) }
  let admet_preds : DataFrame :=
    { index := valid_smiles, colNames := env.admetCols,
      colData := env.admetCols.map (fun c => valid_smiles.map (env.admetVal c)) }
  let all_preds := concatCols physchem_preds admet_preds
  let drugbank_percentiles : DataFrame :=
    { index := valid_smiles
      colNames := all_preds.colNames.map
        (fun p => p ++ "_" ++ DRUGBANK_APPROVED_PERCENTILE_SUFFIX)
      colData := all_preds.colNames.map
        (fun p => compute_drugbank_percentile env.drugbank p (getCol all_preds p) atcCode) }
  concatCols all_preds drugbank_percentiles

/-- The body of the `index` POST handler after the too-many-molecules guard
(views.py lines 89-178).  `smiles_to_mols` (utils, not among the provided
sources) is the elementwise external parse, as its uses on lines 93-102
require. -/
def indexBody {Mol : Type} (env : Env Mol) (cfg : Config) (sess : Session)
    (all_smiles : List String) : IndexOutcome :=
  let warnings := if numInvalid env all_smiles > 0
    then [invalidMsg (numInvalid env all_smiles)] else []
  let valid_smiles := validSmiles env all_smiles
  let valid_mols := (all_smiles.map env.parse).filterMap id
  if valid_smiles.length = 0 then
    { result := .errorPage ["No valid SMILES strings given."], warnings := warnings,
      built := none, stored := none, modelCalled := false }
  else
    let all_preds_with_drugbank := predsTable env sess.atcCode valid_smiles
    -- `set_user_preds` runs here (line 142); then the plot call on lines
    -- 145-151 binds its keyword arguments against plot.py's signature.
    match callCheck "plot_drugbank_reference" plotDrugbankReferenceParams
        plotDrugbankReferenceRequired indexDrugbankCallKwargs with
    | some msg =>
        { result := .pyError msg, warnings := warnings,
          built := some all_preds_with_drugbank, stored := some all_preds_with_drugbank,
          modelCalled := true }
    | none =>
        -- dead code for this call site: the keyword check above always fails
        let drugbank_plot_svg := plot_drugbank_reference env all_preds_with_drugbank
          sess.xTaskName sess.yTaskName sess.atcCode
        let num_display_molecules := min valid_smiles.length cfg.maxVisibleMolecules
        let mol_svgs := (valid_mols.take num_display_molecules).map (plot_molecule_svg env)
        match valid_smiles.take num_display_molecules with
        | [] =>
            { result := .success
                { all_smiles := valid_smiles, mol_svgs := mol_svgs, radial_svgs := [],
                  drugbank_plot := drugbank_plot_svg,
                  num_molecules := valid_smiles.length,
                  num_display_molecules := num_display_molecules, warnings := warnings },
              warnings := warnings, built := some all_preds_with_drugbank,
              stored := some all_preds_with_drugbank, modelCalled := true }
        | _ :: _ =>
            match callCheck "plot_radial_summary" plotRadialSummaryParams
                plotRadialSummaryRequired indexRadialCallKwargs with
            | some msg =>
                { result := .pyError msg, warnings := warnings,
                  built := some all_preds_with_drugbank,
                  stored := some all_preds_with_drugbank, modelCalled := true }
            | none =>
                -- dead code: the radial call site's keywords never bind
                { result := .success
                    { all_smiles := valid_smiles, mol_svgs := mol_svgs, radial_svgs := [],
                      drugbank_plot := drugbank_plot_svg,
                      num_molecules := valid_smiles.length,
                      num_display_molecules := num_display_molecules,
                      warnings := warnings },
                  warnings := warnings, built := some all_preds_with_drugbank,
                  stored := some all_preds_with_drugbank, modelCalled := true }

/-- The `index` POST handler (views.py lines 61-178): the
too-many-molecules guard (lines 79-87), then the body. -/
def index {Mol : Type} (env : Env Mol) (cfg : Config) (sess : Session)
    (all_smiles : List String) : IndexOutcome :=
  match cfg.maxMolecules with
  | some m =>
      if all_smiles.length > m then
        { result := .errorPage [tooManyMsg m], warnings := [], built := none,
          stored := none, modelCalled := false }
      else indexBody env cfg sess all_smiles
  | none => indexBody env cfg sess all_smiles

/-- Decimal rendering of a rational cell. -/
def ratStr (q : Rat) : String :=
  if q.den = 1 then toString q.num else toString q.num ++ "/" ++ toString q.den

/-- The cells of row `i`, in column order. -/
def rowAt (df : DataFrame) (i : Nat) : List Rat :=
  df.colData.map (fun col => col.getD i 0)

/-- `DataFrame.to_csv`: with `withIndex := true` the row keys form the
first, unnamed column; with `withIndex := false` they are omitted.
views.py line 221 passes `index=False`. -/
def toCsv (df : DataFrame) (withIndex : Bool) : String :=
  let header := if withIndex then String.intercalate "," ("" :: df.colNames)
    else String.intercalate "," df.colNames
  let lines := (List.range df.index.length).map (fun i =>
    let cells := (rowAt df i).map ratStr
    if withIndex then String.intercalate "," (df.index.getD i "" :: cells)
    else String.intercalate "," cells)
  String.intercalate "\n" (header :: lines) ++ "\n"

/-- `download_predictions` (views.py lines 208-227): the stored table is
written with `to_csv(..., index=False)` (line 221) and served as a download
named `predictions.csv` (line 226).  The result is the pair of the download
name and the file contents; a session without a user id, or a user without
stored predictions, has no stored table to serve. -/
def download_predictions (store : Store) (sess : Session) : Option (String × String) :=
  match sess.userId with
  | none => none
  | some uid =>
      match get_user_preds store uid with
      | none => none
      | some df => some ("predictions.csv", toCsv df false)

/-- `heartbeat` (views.py lines 230-243): always an empty body with status
204; touches the user's activity timestamp only when the session carries a
user id. -/
def heartbeat (store : Store) (sess : Session) (now : Nat) : (String × Nat) × Store :=
  (("", 204),
    match sess.userId with
    | some uid => update_user_activity store uid now
    | none => store)

/-! ## Supporting lemmas about the handlers -/

theorem validSmiles_eq_nil {Mol : Type} (env : Env Mol) (l : List String)
    (h : ∀ s ∈ l, env.parse s = none) : validSmiles env l = [] := by
  induction l with
  | nil => rfl
  | cons a l ih =>
      unfold validSmiles
      simp only [List.map_cons, List.zip_cons_cons, List.filterMap_cons]
      rw [h a (List.mem_cons_self a l)]
      simp only [Option.isSome_none, Bool.false_eq_true, if_false]
      exact ih (fun s hs => h s (List.mem_cons_of_mem a hs))

theorem validSmiles_ne_nil {Mol : Type} (env : Env Mol) (l : List String)
    (h : ∃ s ∈ l, (env.parse s).isSome = true) : validSmiles env l ≠ [] := by
  induction l with
  | nil => simp at h
  | cons a l ih =>
      unfold validSmiles at ih ⊢
      simp only [List.map_cons, List.zip_cons_cons, List.filterMap_cons]
      rcases hx : env.parse a with _ | m
      · simp only [hx, Option.isSome_none, Bool.false_eq_true, if_false]
        apply ih
        rcases h with ⟨s, hs, hsome⟩
        rcases List.mem_cons.1 hs with rfl | hs'
        · rw [hx] at hsome
          simp at hsome
        · exact ⟨s, hs', hsome⟩
      · simp [hx]

theorem predsTable_index {Mol : Type} (env : Env Mol) (atcCode : Option String)
    (valid_smiles : List String) : (predsTable env atcCode valid_smiles).index = valid_smiles :=
  rfl

theorem indexBody_pyError {Mol : Type} (env : Env Mol) (cfg : Config) (sess : Session)
    (all_smiles : List String) (h : validSmiles env all_smiles ≠ []) :
    indexBody env cfg sess all_smiles =
      { result := .pyError
          "plot_drugbank_reference() got an unexpected keyword argument \x27max_molecule_num\x27",
        warnings := if numInvalid env all_smiles > 0
          then [invalidMsg (numInvalid env all_smiles)] else [],
        built := some (predsTable env sess.atcCode (validSmiles env all_smiles)),
        stored := some (predsTable env sess.atcCode (validSmiles env all_smiles)),
        modelCalled := true } := by
  have hlen : ¬ (validSmiles env all_smiles).length = 0 := by
    simpa [List.length_eq_zero] using h
  have hcc : callCheck "plot_drugbank_reference" plotDrugbankReferenceParams
      plotDrugbankReferenceRequired indexDrugbankCallKwargs =
      some "plot_drugbank_reference() got an unexpected keyword argument \x27max_molecule_num\x27" :=
    rfl
  simp only [indexBody]
  rw [if_neg hlen, hcc]

theorem indexBody_noValid {Mol : Type} (env : Env Mol) (cfg : Config) (sess : Session)
    (all_smiles : List String) (h : validSmiles env all_smiles = []) :
    indexBody env cfg sess all_smiles =
      { result := .errorPage ["No valid SMILES strings given."],
        warnings := if numInvalid env all_smiles > 0
          then [invalidMsg (numInvalid env all_smiles)] else [],
        built := none, stored := none, modelCalled := false } := by
  simp only [indexBody]
  rw [if_pos (by rw [h]; rfl)]

theorem index_eq_body {Mol : Type} (env : Env Mol) (cfg : Config) (sess : Session)
    (all_smiles : List String)
    (hmax : ∀ m, cfg.maxMolecules = some m → all_smiles.length ≤ m) :
    index env cfg sess all_smiles = indexBody env cfg sess all_smiles := by
  unfold index
  split
  · rename_i m hm
    rw [if_neg (by have := hmax m hm; omega)]
  · rfl

theorem index_too_many {Mol : Type} (env : Env Mol) (cfg : Config) (sess : Session)
    (all_smiles : List String) (m : Nat) (hm : cfg.maxMolecules = some m)
    (hlen : all_smiles.length > m) :
    index env cfg sess all_smiles =
      { result := .errorPage [tooManyMsg m], warnings := [], built := none,
        stored := none, modelCalled := false } := by
  unfold index
  split
  · rename_i m2 hm2
    rw [hm2] at hm
    injection hm with hm
    subst hm
    rw [if_pos hlen]
  · rename_i hm2
    rw [hm2] at hm
    cases hm

theorem update_user_activity_unknown (store : Store) (uid : String) (now : Nat)
    (h : ∀ e ∈ store, e.1 ≠ uid) : update_user_activity store uid now = store := by
  unfold update_user_activity
  have hid : ∀ e ∈ store,
      (if e.1 = uid then (e.1, { e.2 with lastActivity := now }) else e) = id e := by
    intro e he
    rw [if_neg (h e he)]
    rfl
  rw [List.map_congr_left hid, List.map_id]

theorem percentileOfScore_range (ref : List Rat) (hne : ref ≠ []) (v : Rat) :
    0 ≤ percentileOfScore ref v ∧ percentileOfScore ref v ≤ 100 := by
  have hn : (0 : Rat) < (ref.length : Rat) := by
    exact_mod_cast List.length_pos.2 hne
  have h1 : ((ref.countP (fun x => x < v) : Nat) : Rat) ≤ ((ref.length : Nat) : Rat) := by
    exact_mod_cast List.countP_le_length _
  have h2 : ((ref.countP (fun x => x ≤ v) : Nat) : Rat) ≤ ((ref.length : Nat) : Rat) := by
    exact_mod_cast List.countP_le_length _
  unfold percentileOfScore
  constructor
  · apply div_nonneg
    · positivity
    · positivity
  · rw [div_le_iff₀ (by linarith)]
    push_cast at h1 h2 ⊢
    linarith

/-! ## Concrete instances used for evaluation -/

/-- A concrete environment: `CCO` is the only SMILES that parses. -/
def envCCO : Env Unit :=
  { parse := fun s => if s = "CCO" then some () else none
    physchemCols := ["molecular_weight"]
    physchemVal := fun _ _ => 1
    admetCols := ["hia"]
    admetVal := fun _ _ => 2
    drugbank := [(["A01"], fun _ => 1)]
    getDrugbank := fun _ => { index := ["ref"], colNames := ["hia"], colData := [[5]] }
    admetNameToId := fun n => n
    renderFig := fun _ => ""
    renderRadial := fun _ => ""
    drawMol := fun _ => "" }

/-- A concrete environment in which no SMILES parses. -/
def envNone : Env Unit := { envCCO with parse := fun _ => none }

/-- A concrete session. -/
def sessU : Session :=
  { userId := some "u", atcCode := none, xTaskName := none, yTaskName := none }

/-- A concrete configuration allowing ten molecules. -/
def cfg10 : Config := { maxMolecules := some 10, maxVisibleMolecules := 25 }

/-! ## The claims -/

/-- C1 — code bug.  The spec says a POST with at least one valid SMILES
within the configured maximum returns a rendered page with the predictions
and plots; in the provided code every such request instead raises
`TypeError`, because `index` (views.py lines 145-151) passes the keyword
`max_molecule_num` which `plot_drugbank_reference` (plot.py lines 33-38)
does not accept (and the `plot_radial_summary` call on lines 160-166 would
fail the same way).  The handler therefore never returns the success page:
it always ends in an uncaught exception after the store was already
mutated. -/
theorem c1_valid_post_raises_type_error {Mol : Type} (env : Env Mol) (cfg : Config)
    (sess : Session) (all_smiles : List String)
    (hmax : ∀ m, cfg.maxMolecules = some m → all_smiles.length ≤ m)
    (hvalid : ∃ s ∈ all_smiles, (env.parse s).isSome = true) :
    (index env cfg sess all_smiles).result =
      .pyError
        "plot_drugbank_reference() got an unexpected keyword argument \x27max_molecule_num\x27" ∧
    ∀ page, (index env cfg sess all_smiles).result ≠ .success page := by
  have hbody := indexBody_pyError env cfg sess all_smiles (validSmiles_ne_nil env _ hvalid)
  rw [index_eq_body env cfg sess all_smiles hmax, hbody]
  exact ⟨rfl, fun page h => by cases h⟩

/-- C1 witness. -/
theorem c1_valid_post_raises_type_error_witness :
    (∀ m, cfg10.maxMolecules = some m → (["CCO"] : List String).length ≤ m) ∧
    (∃ s ∈ (["CCO"] : List String), (envCCO.parse s).isSome = true) ∧
    (index envCCO cfg10 sessU ["CCO"]).result =
      .pyError
        "plot_drugbank_reference() got an unexpected keyword argument \x27max_molecule_num\x27" := by
  refine ⟨?_, ?_, ?_⟩
  · intro m hm
    injection hm with hm
    subst hm
    decide
  · exact ⟨"CCO", by simp, by decide⟩
  · exact (c1_valid_post_raises_type_error envCCO cfg10 sessU ["CCO"]
      (fun m hm => by injection hm with hm; subst hm; decide)
      ⟨"CCO", by simp, by decide⟩).1

/-- C2 counterexample.  The claim asserts that every all-invalid batch gets
the "no valid SMILES" error, but a batch of two invalid SMILES with
`MAX_MOLECULES = 1` is rejected by the earlier too-many-molecules guard
(views.py lines 79-87) with a different error. -/
theorem c2_counterexample :
    (∀ s ∈ (["ab", "cd"] : List String), envNone.parse s = none) ∧
    (index envNone { maxMolecules := some 1, maxVisibleMolecules := 25 } sessU
        ["ab", "cd"]).result =
      .errorPage ["Received too many molecules. Maximum number of molecules is 1."] ∧
    (index envNone { maxMolecules := some 1, maxVisibleMolecules := 25 } sessU
        ["ab", "cd"]).result ≠
      .errorPage ["No valid SMILES strings given."] := by
  refine ⟨by decide, by decide, by decide⟩

/-- C2 — corrected.  For a POST in which every submitted SMILES is invalid
and whose length does not exceed the configured maximum, the handler
computes zero predictions, returns the "no valid SMILES" error, and never
calls `set_user_preds` (views.py lines 100-106; the store write on line 142
is unreachable). -/
theorem c2_all_invalid_no_valid_error {Mol : Type} (env : Env Mol) (cfg : Config)
    (sess : Session) (all_smiles : List String)
    (hinv : ∀ s ∈ all_smiles, env.parse s = none)
    (hmax : ∀ m, cfg.maxMolecules = some m → all_smiles.length ≤ m) :
    (index env cfg sess all_smiles).result =
      .errorPage ["No valid SMILES strings given."] ∧
    (index env cfg sess all_smiles).built = none ∧
    (index env cfg sess all_smiles).stored = none ∧
    (index env cfg sess all_smiles).modelCalled = false := by
  rw [index_eq_body env cfg sess all_smiles hmax,
    indexBody_noValid env cfg sess all_smiles (validSmiles_eq_nil env _ hinv)]
  exact ⟨rfl, rfl, rfl, rfl⟩

/-- C2 witness. -/
theorem c2_all_invalid_no_valid_error_witness :
    (∀ s ∈ (["xy"] : List String), envNone.parse s = none) ∧
    (index envNone cfg10 sessU ["xy"]).result =
      .errorPage ["No valid SMILES strings given."] ∧
    (index envNone cfg10 sessU ["xy"]).stored = none := by
  have h := c2_all_invalid_no_valid_error envNone cfg10 sessU ["xy"]
    (by decide) (fun m hm => by injection hm with hm; subst hm; decide)
  exact ⟨by decide, h.1, h.2.2.1⟩

/-- C3 — code bug.  With N ≥ 1 valid and M ≥ 1 invalid SMILES within the
maximum, the invalid entries are filtered out, the handler's warnings list
is exactly the message naming M, and the combined prediction table is
indexed by the N valid SMILES in input order (views.py lines 92-134) — but
the response does not carry the warning: the request dies with the
`TypeError` of the plot call (views.py lines 145-151 against plot.py lines
33-38), so no page is rendered. -/
theorem c3_mixed_batch_warning_and_rows {Mol : Type} (env : Env Mol) (cfg : Config)
    (sess : Session) (all_smiles : List String)
    (hmax : ∀ m, cfg.maxMolecules = some m → all_smiles.length ≤ m)
    (hvalid : ∃ s ∈ all_smiles, (env.parse s).isSome = true)
    (hinv : numInvalid env all_smiles > 0) :
    (index env cfg sess all_smiles).warnings = [invalidMsg (numInvalid env all_smiles)] ∧
    (index env cfg sess all_smiles).built =
      some (predsTable env sess.atcCode (validSmiles env all_smiles)) ∧
    (predsTable env sess.atcCode (validSmiles env all_smiles)).index =
      validSmiles env all_smiles ∧
    (index env cfg sess all_smiles).result =
      .pyError
        "plot_drugbank_reference() got an unexpected keyword argument \x27max_molecule_num\x27" := by
  have hbody := indexBody_pyError env cfg sess all_smiles (validSmiles_ne_nil env _ hvalid)
  rw [index_eq_body env cfg sess all_smiles hmax, hbody]
  refine ⟨?_, rfl, predsTable_index env sess.atcCode _, rfl⟩
  simp [hinv]

/-- C3 witness: one valid and one invalid SMILES. -/
theorem c3_mixed_batch_warning_and_rows_witness :
    numInvalid envCCO ["CCO", "bad"] = 1 ∧
    validSmiles envCCO ["CCO", "bad"] = ["CCO"] ∧
    (index envCCO cfg10 sessU ["CCO", "bad"]).warnings =
      ["Input contains 1 invalid SMILES string."] ∧
    (index envCCO cfg10 sessU ["CCO", "bad"]).result =
      .pyError
        "plot_drugbank_reference() got an unexpected keyword argument \x27max_molecule_num\x27" := by
  have h := c3_mixed_batch_warning_and_rows envCCO cfg10 sessU ["CCO", "bad"]
    (fun m hm => by injection hm with hm; subst hm; decide)
    ⟨"CCO", by simp, by decide⟩ (by decide)
  refine ⟨by decide, by decide, ?_, h.2.2.2⟩
  rw [h.1]
  decide

/-- C4 — confirmed.  When the configured maximum is not `None` and the
SMILES list is longer, `index` returns the error page naming the maximum
and nothing else happens: no warnings, no table, no store write, no model
call (views.py lines 79-87). -/
theorem c4_too_many_molecules {Mol : Type} (env : Env Mol) (cfg : Config) (sess : Session)
    (all_smiles : List String) (m : Nat) (hm : cfg.maxMolecules = some m)
    (hlen : all_smiles.length > m) :
    index env cfg sess all_smiles =
      { result := .errorPage [tooManyMsg m], warnings := [], built := none,
        stored := none, modelCalled := false } ∧
    tooManyMsg m =
      "Received too many molecules. Maximum number of molecules is " ++ commaFmt m ++ "." := by
  exact ⟨index_too_many env cfg sess all_smiles m hm hlen, rfl⟩

/-- C4 witness: three molecules against a maximum of two. -/
theorem c4_too_many_molecules_witness :
    (["a", "b", "c"] : List String).length > 2 ∧
    (index envNone { maxMolecules := some 2, maxVisibleMolecules := 25 } sessU
        ["a", "b", "c"]).result =
      .errorPage ["Received too many molecules. Maximum number of molecules is 2."] ∧
    (index envNone { maxMolecules := some 2, maxVisibleMolecules := 25 } sessU
        ["a", "b", "c"]).stored = none := by
  have h := (c4_too_many_molecules envNone
    { maxMolecules := some 2, maxVisibleMolecules := 25 } sessU ["a", "b", "c"] 2 rfl
    (by decide)).1
  rw [h]
  refine ⟨by decide, by decide, rfl⟩

/-- C5 — confirmed (the percentile computation is modelled from the spec,
`admet_ai.web.app.drugbank` not being among the provided sources).  For
every property identifier, every filter code present in the reference
dataset, and every input vector, `compute_drugbank_percentile` returns a
same-length vector whose elements all lie in [0, 100]. -/
theorem c5_percentile_range (drugbank : List (List String × (String → Rat)))
    (propertyName : String) (predictions : List Rat) (code : String)
    (hcode : ∃ row ∈ drugbank, code ∈ row.1) :
    (compute_drugbank_percentile drugbank propertyName predictions (some code)).length =
      predictions.length ∧
    ∀ x ∈ compute_drugbank_percentile drugbank propertyName predictions (some code),
      0 ≤ x ∧ x ≤ 100 := by
  obtain ⟨row, hrow, hmem⟩ := hcode
  have hrows : ∀ rows : List (List String × (String → Rat)), row ∈ rows →
      (rows.map (fun r => r.2 propertyName)) ≠ [] := by
    intro rows hr hnil
    rw [List.map_eq_nil_iff] at hnil
    subst hnil
    cases hr
  simp only [compute_drugbank_percentile]
  by_cases hall : code = "all"
  · rw [if_pos hall]
    constructor
    · exact List.length_map _ _
    · intro x hx
      obtain ⟨v, hv, rfl⟩ := List.mem_map.1 hx
      exact percentileOfScore_range _ (hrows drugbank hrow) v
  · rw [if_neg hall]
    have hrow' : row ∈ drugbank.filter (fun r => r.1.contains code) := by
      rw [List.mem_filter]
      exact ⟨hrow, by simpa using hmem⟩
    constructor
    · exact List.length_map _ _
    · intro x hx
      obtain ⟨v, hv, rfl⟩ := List.mem_map.1 hx
      exact percentileOfScore_range _ (hrows _ hrow') v

/-- C5 witness: a one-row reference with code `A01`. -/
theorem c5_percentile_range_witness :
    (∃ row ∈ ([(["A01"], fun _ => (1 : Rat))] : List (List String × (String → Rat))),
      "A01" ∈ row.1) ∧
    (compute_drugbank_percentile [(["A01"], fun _ => (1 : Rat))] "hia" [5, 0]
        (some "A01")).length = 2 ∧
    ∀ x ∈ compute_drugbank_percentile [(["A01"], fun _ => (1 : Rat))] "hia" [5, 0]
        (some "A01"), 0 ≤ x ∧ x ≤ 100 := by
  have hcode : ∃ row ∈ ([(["A01"], fun _ => (1 : Rat))] :
      List (List String × (String → Rat))), "A01" ∈ row.1 :=
    ⟨(["A01"], fun _ => (1 : Rat)), by simp, by simp⟩
  have h := c5_percentile_range [(["A01"], fun _ => (1 : Rat))] "hia" [5, 0] "A01" hcode
  exact ⟨hcode, h.1, h.2⟩

/-- C6 — confirmed (the store update is modelled from the spec,
`admet_ai.web.app.storage` not being among the provided sources).
`POST /heartbeat` always returns an empty body with status 204, and when
the session carries no user identifier, or an identifier absent from the
store, the store is unchanged (views.py lines 230-243; `touch` is a no-op
for unknown users). -/
theorem c6_heartbeat_no_content (store : Store) (sess : Session) (now : Nat) :
    (heartbeat store sess now).1 = ("", 204) ∧
    ((sess.userId = none ∨ ∀ e ∈ store, some e.1 ≠ sess.userId) →
      (heartbeat store sess now).2 = store) := by
  constructor
  · rfl
  · intro h
    unfold heartbeat
    rcases hu : sess.userId with _ | uid
    · rfl
    · rcases h with h | h
      · rw [hu] at h
        cases h
      · apply update_user_activity_unknown
        intro e he heq
        exact h e he (by rw [hu, heq])

/-- C6 witness: an empty store and a session without a user id. -/
theorem c6_heartbeat_no_content_witness :
    (heartbeat [] { userId := none, atcCode := none, xTaskName := none, yTaskName := none }
        0).1 = ("", 204) ∧
    (heartbeat [] { userId := none, atcCode := none, xTaskName := none, yTaskName := none }
        0).2 = [] := by
  have h := c6_heartbeat_no_content []
    { userId := none, atcCode := none, xTaskName := none, yTaskName := none } 0
  exact ⟨h.1, h.2 (Or.inl rfl)⟩

/-- The prediction table of the C7 instance. -/
def c7df : DataFrame := { index := ["CCO"], colNames := ["prop"], colData := [[1]] }

/-- The store of the C7 instance, holding predictions for user `u`. -/
def c7store : Store := [("u", { preds := c7df, lastActivity := 0 })]

/-- C7 counterexample.  The download is written with `index=False`
(views.py line 221), so the served CSV lacks the row keys: for a stored
one-row table the download contents are `prop\n1\n`, while the table
serialised with its row keys is `,prop\nCCO,1\n`. -/
theorem c7_counterexample :
    download_predictions c7store sessU = some ("predictions.csv", "prop\n1\n") ∧
    toCsv c7df true = ",prop\nCCO,1\n" ∧
    ("prop\n1\n" : String) ≠ ",prop\nCCO,1\n" := by
  refine ⟨by decide, by decide, by decide⟩

/-- C7 — corrected.  For every GET of `/download_predictions` by a user
with a stored prediction table, the response is a download named
`predictions.csv` whose contents equal the stored table serialised WITHOUT
its row keys (`to_csv(..., index=False)` drops the SMILES index). -/
theorem c7_download_csv (store : Store) (sess : Session) (uid : String) (df : DataFrame)
    (hsess : sess.userId = some uid) (hget : get_user_preds store uid = some df) :
    download_predictions store sess = some ("predictions.csv", toCsv df false) := by
  unfold download_predictions
  rw [hsess]
  show (match get_user_preds store uid with
    | none => none
    | some df => some ("predictions.csv", toCsv df false)) =
    some ("predictions.csv", toCsv df false)
  rw [hget]

/-- C7 witness. -/
theorem c7_download_csv_witness :
    sessU.userId = some "u" ∧
    get_user_preds c7store "u" = some c7df ∧
    download_predictions c7store sessU = some ("predictions.csv", toCsv c7df false) := by
  exact ⟨rfl, by decide, c7_download_csv c7store sessU "u" c7df rfl (by decide)⟩

/-- C8 — confirmed.  With an empty predictions table the figure built by
`plot_drugbank_reference` contains only the DrugBank reference layer: the
submitted-molecule scatter is guarded by `len(preds_df) > 0`
(plot.py lines 76-85). -/
theorem c8_empty_preds_reference_only {Mol : Type} (env : Env Mol) (preds_df : DataFrame)
    (x_property_name y_property_name atc_code : Option String)
    (hempty : preds_df.nrows = 0) :
    (drugbankFigure env preds_df x_property_name y_property_name atc_code).layers =
      [drugbankLayer env
        (env.admetNameToId (x_property_name.getD "Human Intestinal Absorption"))
        (env.admetNameToId (y_property_name.getD "Clinical Toxicity"))
        (atc_code.getD "all")] := by
  unfold drugbankFigure
  simp [hempty]

/-- C8 witness: an empty table. -/
theorem c8_empty_preds_reference_only_witness :
    ({ index := [], colNames := [], colData := [] } : DataFrame).nrows = 0 ∧
    (drugbankFigure envCCO { index := [], colNames := [], colData := [] }
        none none none).layers =
      [drugbankLayer envCCO "Human Intestinal Absorption" "Clinical Toxicity" "all"] := by
  refine ⟨rfl, ?_⟩
  have h := c8_empty_preds_reference_only envCCO
    { index := [], colNames := [], colData := [] } none none none rfl
  simpa using h

/-- C9 — confirmed.  Every SVG string returned by the three plot functions
passes through `replace_svg_dimensions` (plot.py lines 105, 171, 193), and
the result contains no width or height attribute of the form
`width=['\"]digits[.digits]unit['\"]` anywhere: every such attribute has
been rewritten to `100%`. -/
theorem c9_svg_dimensions_rewritten {Mol : Type} (env : Env Mol) (preds_df : DataFrame)
    (x_property_name y_property_name atc_code : Option String) (d : String → Rat)
    (property_names : List String) (suffixStr : String) (mol : Mol) (s : String) :
    (hasMatch tryMatchW (replace_svg_dimensions s).data = false ∧
      hasMatch tryMatchH (replace_svg_dimensions s).data = false) ∧
    (hasMatch tryMatchW
        (plot_drugbank_reference env preds_df x_property_name y_property_name
          atc_code).data = false ∧
      hasMatch tryMatchH
        (plot_drugbank_reference env preds_df x_property_name y_property_name
          atc_code).data = false) ∧
    (hasMatch tryMatchW (plot_radial_summary env d property_names suffixStr).data = false ∧
      hasMatch tryMatchH (plot_radial_summary env d property_names suffixStr).data = false) ∧
    (hasMatch tryMatchW (plot_molecule_svg env mol).data = false ∧
      hasMatch tryMatchH (plot_molecule_svg env mol).data = false) :=
  ⟨⟨replaceSvgList_noW _, replaceSvgList_noH _⟩,
    ⟨replaceSvgList_noW _, replaceSvgList_noH _⟩,
    ⟨replaceSvgList_noW _, replaceSvgList_noH _⟩,
    ⟨replaceSvgList_noW _, replaceSvgList_noH _⟩⟩

/-- C10 — confirmed.  `replace_svg_dimensions` is idempotent: the
substituted value `100%` has no alphabetic unit after the digits, so the
output of a substitution pass contains no occurrence of either pattern and
a second pass leaves it unchanged. -/
theorem c10_replace_svg_dimensions_idempotent (s : String) :
    replace_svg_dimensions (replace_svg_dimensions s) = replace_svg_dimensions s := by
  unfold replace_svg_dimensions
  rw [show (String.mk (replaceSvgList s.data)).data = replaceSvgList s.data from rfl]
  rw [replaceSvgList_idem]

end AdmetAI
